import Mathlib

/-!
# Python/random.c : kernel entropy sources and the hash secret

A shallow embedding of `Python/random.c` for the POSIX builds (the three
preprocessor configurations `PY_GETRANDOM`, `PY_GETENTROPY` and plain
`/dev/urandom`), followed by the properties proved about it.

Conventions of the embedding.

* The destination of a fill is a region of memory addressed from its first
  byte: `World.mem i` is the byte at `buffer + i`.  A C pointer into the region
  is the offset it has reached.
* Everything the code asks of its environment (a system call, a helper of
  `fileutils.c`, `PyErr_CheckSignals`) is answered by the next entry of a
  script of responses, `List Resp`.  A run whose script ends early, or whose
  next entry is not an answer to the question asked, stops there without a
  return value (`ret = none`), keeping the events performed so far.  Every loop
  of the source asks at least one question per iteration, so every function is
  structurally recursive on the script.
* A function returns its C return value, the world it leaves, the events it
  performed in order, and the unread rest of the script.
* C integer limits are those of an LP64 target.
-/

namespace PyRandom

/-! ## Data model -/

/-- Values of `errno` the source distinguishes; `ok` is `errno == 0`. -/
inductive Errno where
  | ok | EPERM | ENOENT | EINTR | ENXIO | EAGAIN | EACCES | ENODEV | ERANGE | ENOSYS
  | other (code : Nat)
  deriving DecidableEq, Repr

/-- The static `urandom_cache` of the source, lines 269-273. -/
structure UrandomCache where
  fd : Int
  st_dev : Nat
  st_ino : Nat
  deriving DecidableEq, Repr

/-- Process-wide state read and written by the source, and the destination memory. -/
structure World where
  /-- `static int getrandom_works` of `py_getrandom`. -/
  getrandom_works : Bool
  /-- `static int getentropy_works` of `py_getentropy`. -/
  getentropy_works : Bool
  urandom_cache : UrandomCache
  /-- The flag that `_PyRandom_Init` has run. -/
  _Py_HashSecret_Initialized : Bool
  errno : Errno
  /-- The destination region: `mem i` is the byte at `buffer + i`. -/
  mem : Nat → Nat

/-- The state at process start: the C initialisers of the static variables. -/
def World.init (mem : Nat → Nat) : World :=
  { getrandom_works := true, getentropy_works := true,
    urandom_cache := { fd := -1, st_dev := 0, st_ino := 0 },
    _Py_HashSecret_Initialized := false, errno := Errno.ok, mem := mem }

/-- Store `chunk` at offset `off`: what a kernel does when it fills `dest`. -/
def store (mem : Nat → Nat) (off : Nat) (chunk : List Nat) : Nat → Nat :=
  fun i => if off ≤ i ∧ i < off + chunk.length then chunk.getD (i - off) 0 else mem i

/-- The first `n` bytes of a region, as a list. -/
def bytes (mem : Nat → Nat) (n : Nat) : List Nat :=
  (List.range n).map mem

/-! ## The linear congruential generator (lines 406-425) -/

/-- The body of the `for` loop of `lcg_urandom`, run for `size - index` more rounds. -/
def lcg_loop (x : Nat) (mem : Nat → Nat) (index : Nat) : Nat → Nat → Nat
  | 0 => mem
  | remaining + 1 =>
    let x1 := (x * 214013) % 2 ^ 32
    let x2 := (2531011 + x1) % 2 ^ 32
    lcg_loop x2 (store mem index [(x2 >>> 16) &&& 0xff]) (index + 1) remaining

/-- The function `lcg_urandom(x0, buffer, size)`; `x0` is an `unsigned int`. -/
def lcg_urandom (x0 : Nat) (mem : Nat → Nat) (size : Nat) : Nat → Nat :=
  lcg_loop x0 mem 0 size

/-- The recurrence of the source comment: `x(n+1) = (x(n) * 214013 + 2531011) % 2^32`. -/
def lcgState (x0 : Nat) : Nat → Nat
  | 0 => x0
  | k + 1 => (lcgState x0 k * 214013 + 2531011) % 2 ^ 32

/-! ## The environment -/

/-- An answer of the environment to one question of the code. -/
inductive Resp where
  /-- A `getrandom`, `getentropy`, `read` or `_Py_read` call succeeded; `ready` are the bytes
  the kernel has ready, of which it delivers no more than were asked for. -/
  | data (ready : List Nat)
  /-- An `open` succeeded and returned this descriptor. -/
  | fd (n : Nat)
  /-- An `fstat` succeeded and reported this device and inode. -/
  | stat (st_dev st_ino : Nat)
  /-- The call failed and left this value in `errno`. -/
  | fail (e : Errno)
  /-- The outcome of `PyErr_CheckSignals()`: `raised` when a handler raised an exception. -/
  | signals (raised : Bool)
  deriving DecidableEq, Repr

/-- What the code does that is visible outside it, in the order it does it.  A call records
its arguments and its outcome; a successful transfer records the bytes delivered. -/
inductive Event where
  | Py_BEGIN_ALLOW_THREADS
  | Py_END_ALLOW_THREADS
  | getrandom (dest : Nat) (n : Int) (flags : Nat) (r : Resp)
  | getentropy (dest : Nat) (len : Int) (r : Resp)
  | PyErr_CheckSignals (raised : Bool)
  | PyErr_SetFromErrno (e : Errno)
  | PyErr_SetString_NotImplementedError
  | PyErr_Format_RuntimeError (size : Int)
  | PyErr_Format_ValueError
  | Py_fstat_noraise (fd : Int) (r : Resp)
  | Py_open (r : Resp)
  | Py_fstat (fd : Int) (r : Resp)
  | Py_read (fd : Int) (dest : Nat) (count : Nat) (r : Resp)
  | Py_open_noraise (r : Resp)
  | read (fd : Int) (dest : Nat) (count : Nat) (r : Resp)
  | close (fd : Int)
  deriving DecidableEq, Repr

/-- The result of running a function of the source. -/
structure Out where
  /-- The C return value; `none` when the script stopped the run before it returned. -/
  ret : Option Int
  w : World
  /-- The events of the run, first to last. -/
  events : List Event
  /-- The responses the run did not read. -/
  rest : List Resp

/-- Put the events `es` before those of a run. -/
def emit (es : List Event) (o : Out) : Out :=
  { o with events := es ++ o.events }

/-- The run stops: the script has no answer to the next question. -/
def stuck (w : World) (script : List Resp) : Out :=
  { ret := none, w := w, events := [], rest := script }

/-- A call that the source wraps in `Py_BEGIN_ALLOW_THREADS` / `Py_END_ALLOW_THREADS`
when `raise` is set and makes directly otherwise. -/
def allowThreads (raise : Bool) (call : Event) : List Event :=
  if raise then [Event.Py_BEGIN_ALLOW_THREADS, call, Event.Py_END_ALLOW_THREADS] else [call]

/-- The three POSIX configurations of the preprocessor: `PY_GETRANDOM` (with or without
`sun`), `PY_GETENTROPY`, or neither. -/
inductive Build where
  | getrandom (sun : Bool)
  | getentropy
  | devurandom
  deriving DecidableEq, Repr

def GRND_NONBLOCK : Nat := 1

def LONG_MAX : Int := 9223372036854775807

def ULONG_MAX : Nat := 18446744073709551615

def PY_SSIZE_T_MAX : Int := 9223372036854775807

/-- The conversion `(size_t)size` of a `Py_ssize_t`. -/
def size_t (size : Int) : Nat := (size % 18446744073709551616).toNat

/-- The bytes a successful `getentropy(buffer, len)` leaves in the buffer: exactly `len`
of them, taken from what the kernel has ready (zero beyond its end). -/
def fillExact (ready : List Nat) (len : Nat) : List Nat :=
  (List.range len).map fun i => ready.getD i 0

/-! ## `py_getrandom` (lines 101-191) -/

/-- Lines 119-126: the number of bytes asked of one `getrandom` call, `Py_MIN(size, 1024)`
under `sun` and `Py_MIN(size, LONG_MAX)` otherwise. -/
def getrandom_chunk (sun : Bool) (size : Int) : Int :=
  if sun then min size 1024 else min size LONG_MAX

/-- Line 116: `flags = blocking ? 0 : GRND_NONBLOCK`. -/
def getrandom_flags (blocking : Bool) : Nat :=
  if blocking then 0 else GRND_NONBLOCK

/-- The `while (0 < size)` loop of `py_getrandom`, with `dest` as an offset from `buffer`. -/
def py_getrandom_loop (sun blocking raise : Bool) (w : World) (dest : Nat) (size : Int)
    (script : List Resp) : Out :=
  if 0 < size then
    let n : Int := getrandom_chunk sun size
    let flags : Nat := getrandom_flags blocking
    match script with
    | Resp.data ready :: rest =>
      let got := ready.take n.toNat
      emit (allowThreads raise (Event.getrandom dest n flags (Resp.data got)))
        (py_getrandom_loop sun blocking raise
          { w with errno := Errno.ok, mem := store w.mem dest got }
          (dest + got.length) (size - got.length) rest)
    | Resp.fail e :: rest =>
      let w1 : World := { w with errno := e }
      let call := allowThreads raise (Event.getrandom dest n flags (Resp.fail e))
      if e = Errno.ENOSYS ∨ e = Errno.EPERM then
        { ret := some 0, w := { w1 with getrandom_works := false }, events := call, rest := rest }
      else if e = Errno.EAGAIN ∧ raise = false ∧ blocking = false then
        { ret := some 0, w := w1, events := call, rest := rest }
      else if e = Errno.EINTR then
        if raise then
          match rest with
          | Resp.signals raised :: rest1 =>
            if raised then
              { ret := some (-1), w := w1, events := call ++ [Event.PyErr_CheckSignals true],
                rest := rest1 }
            else
              emit (call ++ [Event.PyErr_CheckSignals false])
                (py_getrandom_loop sun blocking raise w1 dest size rest1)
          | _ => emit call (stuck w1 rest)
        else
          emit call (py_getrandom_loop sun blocking raise w1 dest size rest)
      else
        { ret := some (-1), w := w1,
          events := call ++ (if raise then [Event.PyErr_SetFromErrno e] else []),
          rest := rest }
    | _ => stuck w script
  else
    { ret := some 1, w := w, events := [], rest := script }

/-- The function `py_getrandom(buffer, size, blocking, raise)`. -/
def py_getrandom (sun : Bool) (w : World) (size : Int) (blocking raise : Bool)
    (script : List Resp) : Out :=
  if w.getrandom_works = false then
    { ret := some 0, w := w, events := [], rest := script }
  else
    py_getrandom_loop sun blocking raise w 0 size script

/-! ## `py_getentropy` (lines 209-265) -/

/-- The `while (size > 0)` loop of `py_getentropy`. -/
def py_getentropy_loop (raise : Bool) (w : World) (dest : Nat) (size : Int)
    (script : List Resp) : Out :=
  if 0 < size then
    let len : Int := min size 256
    match script with
    | Resp.data ready :: rest =>
      let got := fillExact ready len.toNat
      emit (allowThreads raise (Event.getentropy dest len (Resp.data got)))
        (py_getentropy_loop raise { w with mem := store w.mem dest got }
          (dest + len.toNat) (size - len) rest)
    | Resp.fail e :: rest =>
      let w1 : World := { w with errno := e }
      let call := allowThreads raise (Event.getentropy dest len (Resp.fail e))
      if e = Errno.ENOSYS ∨ e = Errno.EPERM then
        { ret := some 0, w := { w1 with getentropy_works := false }, events := call, rest := rest }
      else if e = Errno.EINTR then
        if raise then
          match rest with
          | Resp.signals raised :: rest1 =>
            if raised then
              { ret := some (-1), w := w1, events := call ++ [Event.PyErr_CheckSignals true],
                rest := rest1 }
            else
              emit (call ++ [Event.PyErr_CheckSignals false])
                (py_getentropy_loop raise w1 dest size rest1)
          | _ => emit call (stuck w1 rest)
        else
          emit call (py_getentropy_loop raise w1 dest size rest)
      else
        { ret := some (-1), w := w1,
          events := call ++ (if raise then [Event.PyErr_SetFromErrno e] else []),
          rest := rest }
    | _ => stuck w script
  else
    { ret := some 1, w := w, events := [], rest := script }

/-- The function `py_getentropy(buffer, size, raise)`. -/
def py_getentropy (w : World) (size : Int) (raise : Bool) (script : List Resp) : Out :=
  if w.getentropy_works = false then
    { ret := some 0, w := w, events := [], rest := script }
  else
    py_getentropy_loop raise w 0 size script

/-! ## `dev_urandom` (lines 302-393) -/

/-- The `do ... while (0 < size)` loop of the `raise` branch, reading with `_Py_read`. -/
def dev_urandom_read (fd : Int) (w : World) (dest : Nat) (size : Int) :
    List Resp → Out
  | Resp.data ready :: rest =>
    let got := ready.take (size_t size)
    let call := Event.Py_read fd dest (size_t size) (Resp.data got)
    if got.length = 0 then
      { ret := some (-1), w := w, events := [call, Event.PyErr_Format_RuntimeError size],
             rest := rest }
    else
      let w1 : World := { w with mem := store w.mem dest got }
      if 0 < size - got.length then
        emit [call] (dev_urandom_read fd w1 (dest + got.length) (size - got.length) rest)
      else
        { ret := some 0, w := w1, events := [call], rest := rest }
  | Resp.fail e :: rest =>
    { ret := some (-1), w := { w with errno := e },
           events := [Event.Py_read fd dest (size_t size) (Resp.fail e)], rest := rest }
  | script => stuck w script

/-- The `while (0 < size)` loop of the other branch, with its inner
`do ... while (n < 0 && errno == EINTR)`, and the `close(fd)` after it. -/
def dev_urandom_read_noraise (fd : Int) (w : World) (dest : Nat) (size : Int)
    (script : List Resp) : Out :=
  if 0 < size then
    match script with
    | Resp.data ready :: rest =>
      let got := ready.take (size_t size)
      let call := Event.read fd dest (size_t size) (Resp.data got)
      if got.length = 0 then
        { ret := some (-1), w := w, events := [call, Event.close fd], rest := rest }
      else
        emit [call]
          (dev_urandom_read_noraise fd { w with mem := store w.mem dest got }
            (dest + got.length) (size - got.length) rest)
    | Resp.fail e :: rest =>
      let w1 : World := { w with errno := e }
      let call := Event.read fd dest (size_t size) (Resp.fail e)
      if e = Errno.EINTR then
        emit [call] (dev_urandom_read_noraise fd w1 dest size rest)
      else
        { ret := some (-1), w := w1, events := [call, Event.close fd], rest := rest }
    | _ => stuck w script
  else
    { ret := some 0, w := w, events := [Event.close fd], rest := script }

/-- Lines 322-367 of `dev_urandom`: take the cached descriptor or open, check and cache a
new one, then read from it. -/
def dev_urandom_open (w1 : World) (size : Int) (script1 : List Resp) : Out :=
  if 0 ≤ w1.urandom_cache.fd then
    dev_urandom_read w1.urandom_cache.fd w1 0 size script1
  else
    match script1 with
    | Resp.fd n :: script2 =>
      let fd : Int := n
      if 0 ≤ w1.urandom_cache.fd then
        emit [Event.Py_open (Resp.fd n), Event.close fd]
          (dev_urandom_read w1.urandom_cache.fd w1 0 size script2)
      else
        match script2 with
        | Resp.stat st_dev st_ino :: script3 =>
          emit [Event.Py_open (Resp.fd n), Event.Py_fstat fd (Resp.stat st_dev st_ino)]
            (dev_urandom_read fd
              { w1 with urandom_cache := { fd := fd, st_dev := st_dev, st_ino := st_ino } }
              0 size script3)
        | Resp.fail e :: script3 =>
          { ret := some (-1), w := { w1 with errno := e },
            events := [Event.Py_open (Resp.fd n), Event.Py_fstat fd (Resp.fail e),
                       Event.close fd],
            rest := script3 }
        | _ => emit [Event.Py_open (Resp.fd n)] (stuck w1 script2)
    | Resp.fail e :: script2 =>
      { ret := some (-1), w := { w1 with errno := e },
        events := Event.Py_open (Resp.fail e) ::
          (if e = Errno.ENOENT ∨ e = Errno.ENXIO ∨ e = Errno.ENODEV ∨ e = Errno.EACCES
           then [Event.PyErr_SetString_NotImplementedError] else []),
        rest := script2 }
    | _ => stuck w1 script1

/-- The function `dev_urandom(buffer, size, raise)`.  With `raise`, lines 311-321 first ask
`_Py_fstat_noraise` whether the cached descriptor still is the file it was, and forget it
(without closing it) when it is not. -/
def dev_urandom (w : World) (size : Int) (raise : Bool) (script : List Resp) : Out :=
  if raise then
    if 0 ≤ w.urandom_cache.fd then
      match script with
      | Resp.stat st_dev st_ino :: rest =>
        let call := Event.Py_fstat_noraise w.urandom_cache.fd (Resp.stat st_dev st_ino)
        if st_dev ≠ w.urandom_cache.st_dev ∨ st_ino ≠ w.urandom_cache.st_ino then
          emit [call]
            (dev_urandom_open { w with urandom_cache := { w.urandom_cache with fd := -1 } }
              size rest)
        else
          emit [call] (dev_urandom_open w size rest)
      | Resp.fail e :: rest =>
        emit [Event.Py_fstat_noraise w.urandom_cache.fd (Resp.fail e)]
          (dev_urandom_open
            { w with errno := e, urandom_cache := { w.urandom_cache with fd := -1 } }
            size rest)
      | _ => stuck w script
    else
      dev_urandom_open w size script
  else
    match script with
    | Resp.fd n :: script1 =>
      emit [Event.Py_open_noraise (Resp.fd n)] (dev_urandom_read_noraise n w 0 size script1)
    | Resp.fail e :: script1 =>
      { ret := some (-1), w := { w with errno := e },
        events := [Event.Py_open_noraise (Resp.fail e)], rest := script1 }
    | _ => stuck w script

/-! ## `pyurandom` and the public entry points (lines 470-540) -/

/-- Lines 499-509: what `pyurandom` does with the result `res` of the syscall backend. -/
def pyurandom_dispatch (size : Int) (raise : Bool) (res : Out) : Out :=
  match res.ret with
  | none => res
  | some r =>
    if r < 0 then
      { res with ret := some (-1) }
    else if r = 1 then
      { res with ret := some 0 }
    else
      emit res.events (dev_urandom res.w size raise res.rest)

/-- The function `pyurandom(buffer, size, blocking, raise)`. -/
def pyurandom (b : Build) (w : World) (size : Int) (blocking raise : Bool)
    (script : List Resp) : Out :=
  if size < 0 then
    { ret := some (-1), w := w,
           events := if raise then [Event.PyErr_Format_ValueError] else [],
           rest := script }
  else if size = 0 then
    { ret := some 0, w := w, events := [], rest := script }
  else
    match b with
    | Build.getrandom sun =>
      pyurandom_dispatch size raise (py_getrandom sun w size blocking raise script)
    | Build.getentropy =>
      pyurandom_dispatch size raise (py_getentropy w size raise script)
    | Build.devurandom => dev_urandom w size raise script

/-- The function `_PyOS_URandom(buffer, size)`. -/
def _PyOS_URandom (b : Build) (w : World) (size : Int) (script : List Resp) : Out :=
  pyurandom b w size true true script

/-- The function `_PyOS_URandomNonblock(buffer, size)`. -/
def _PyOS_URandomNonblock (b : Build) (w : World) (size : Int) (script : List Resp) :
    Out :=
  pyurandom b w size false true script

/-! ## `_PyRandom_Init` (lines 542-592) -/

/-- The C library's `isspace` in the "C" locale. -/
def isspace (c : Char) : Bool :=
  c = ' ' || c = Char.ofNat 9 || c = Char.ofNat 10 || c = Char.ofNat 11 ||
    c = Char.ofNat 12 || c = Char.ofNat 13

/-- The C library's `isdigit`. -/
def isdigit (c : Char) : Bool :=
  decide ('0' ≤ c) && decide (c ≤ '9')

/-- The number a sequence of decimal digits denotes. -/
def decimalValue (digits : List Char) : Nat :=
  digits.foldl (fun acc c => 10 * acc + (c.toNat - 48)) 0

/-- What `strtoul(nptr, &endptr, 10)` leaves behind. -/
structure Strtoul where
  value : Nat
  /-- The characters from `endptr` to the end of the string. -/
  endptr : List Char
  errno : Errno
  deriving DecidableEq, Repr

/-- The string after its leading white space. -/
def skipSpace (s : List Char) : List Char :=
  s.dropWhile isspace

/-- The string begins with a minus sign. -/
def hasMinus (s : List Char) : Bool :=
  s.head? = some '-'

/-- The string after its sign, when it begins with one. -/
def afterSign (s : List Char) : List Char :=
  if s.head? = some '-' ∨ s.head? = some '+' then s.tail else s

/-- The C library's `strtoul(nptr, &endptr, 10)` after ISO C 7.22.1.4, on a string given
by its characters before the terminating NUL: white space is skipped, a sign is optional,
the longest run of digits is converted; without a digit nothing is converted and `endptr`
is `nptr`; a value above `ULONG_MAX` gives `ULONG_MAX` and `ERANGE`; after a minus sign
the value is negated in `unsigned long`. -/
def strtoul (nptr : List Char) (errno : Errno) : Strtoul :=
  let s1 := skipSpace nptr
  let s2 := afterSign s1
  let digits := s2.takeWhile isdigit
  if digits = [] then
    { value := 0, endptr := nptr, errno := errno }
  else if ULONG_MAX < decimalValue digits then
    { value := ULONG_MAX, endptr := s2.dropWhile isdigit, errno := Errno.ERANGE }
  else if hasMinus s1 then
    { value := (ULONG_MAX + 1 - decimalValue digits) % (ULONG_MAX + 1),
      endptr := s2.dropWhile isdigit, errno := errno }
  else
    { value := decimalValue digits, endptr := s2.dropWhile isdigit, errno := errno }

/-- The integer a numeral denotes, for the strings that are one: optional leading white
space, an optional sign, and then decimal digits to the end of the string. -/
def numeral (s : List Char) : Option Int :=
  let body := afterSign (skipSpace s)
  if body ≠ [] ∧ body.all isdigit then
    some (if hasMinus (skipSpace s) then -(decimalValue body : Int) else (decimalValue body : Int))
  else
    none

/-- How a call of `_PyRandom_Init` ends: it returns, or `Py_FatalError` ends the process. -/
inductive Ending where
  | returned
  /-- `PYTHONHASHSEED must be "random" or an integer in range [0; 4294967295]`. -/
  | fatalHashSeed
  /-- `failed to get random numbers to initialize Python`. -/
  | fatalNoRandom
  deriving DecidableEq, Repr

/-- The result of running `_PyRandom_Init`. -/
structure InitOut where
  /-- How the call ended; `none` when the script stopped the run before it ended. -/
  ending : Option Ending
  w : World
  events : List Event
  rest : List Resp

/-- Lines 579-591 of `_PyRandom_Init`: the branch that asks the kernel. -/
def _PyRandom_Init_entropy (b : Build) (secret_size : Nat) (w1 : World)
    (script : List Resp) : InitOut :=
  let res := pyurandom b w1 secret_size false false script
  { ending := res.ret.map fun r => if r < 0 then Ending.fatalNoRandom else Ending.returned,
    w := res.w, events := res.events, rest := res.rest }

/-- The function `_PyRandom_Init()`.  `secret_size` is `sizeof(_Py_HashSecret_t)`, `env` is
what `Py_GETENV("PYTHONHASHSEED")` returns (`none` for `NULL`), and the destination region
of the world is `_Py_HashSecret`. -/
def _PyRandom_Init (b : Build) (secret_size : Nat) (env : Option (List Char)) (w : World)
    (script : List Resp) : InitOut :=
  if w._Py_HashSecret_Initialized then
    { ending := some Ending.returned, w := w, events := [], rest := script }
  else
    let w1 : World := { w with _Py_HashSecret_Initialized := true }
    match env with
    | some (c :: cs) =>
      if c :: cs ≠ ['r', 'a', 'n', 'd', 'o', 'm'] then
        let r := strtoul (c :: cs) w1.errno
        let w2 : World := { w1 with errno := r.errno }
        if r.endptr ≠ [] ∨ 4294967295 < r.value ∨
            (r.errno = Errno.ERANGE ∧ r.value = ULONG_MAX) then
          { ending := some Ending.fatalHashSeed, w := w2, events := [], rest := script }
        else if r.value = 0 then
          { ending := some Ending.returned,
            w := { w2 with mem := store w2.mem 0 (List.replicate secret_size 0) },
            events := [], rest := script }
        else
          { ending := some Ending.returned,
            w := { w2 with mem := lcg_urandom (r.value % 2 ^ 32) w2.mem secret_size },
            events := [], rest := script }
      else
        _PyRandom_Init_entropy b secret_size w1 script
    | _ => _PyRandom_Init_entropy b secret_size w1 script

/-! ## Classes of events -/

/-- An operation of the device-file backend `dev_urandom`. -/
def Event.isDevice : Event → Bool
  | Event.Py_fstat_noraise _ _ => true
  | Event.Py_open _ => true
  | Event.Py_fstat _ _ => true
  | Event.Py_read _ _ _ _ => true
  | Event.Py_open_noraise _ => true
  | Event.read _ _ _ _ => true
  | Event.close _ => true
  | Event.PyErr_SetString_NotImplementedError => true
  | Event.PyErr_Format_RuntimeError _ => true
  | _ => false

/-- A pending-signal check. -/
def Event.isSignalCheck : Event → Bool
  | Event.PyErr_CheckSignals _ => true
  | _ => false

/-- A release or re-acquisition of the GIL. -/
def Event.releasesLock : Event → Bool
  | Event.Py_BEGIN_ALLOW_THREADS => true
  | Event.Py_END_ALLOW_THREADS => true
  | _ => false

/-- The construction of an error object: a `PyErr_*` call, or a helper of `fileutils.c`
that raises on failure (`_Py_open`, `_Py_fstat`, `_Py_read`). -/
def Event.makesError : Event → Bool
  | Event.PyErr_SetFromErrno _ => true
  | Event.PyErr_SetString_NotImplementedError => true
  | Event.PyErr_Format_RuntimeError _ => true
  | Event.PyErr_Format_ValueError => true
  | Event.Py_open _ => true
  | Event.Py_fstat _ _ => true
  | Event.Py_read _ _ _ _ => true
  | _ => false

/-- A failure of `getrandom` or `getentropy` with `ENOSYS` or `EPERM`. -/
def Event.isLatchFailure : Event → Bool
  | Event.getrandom _ _ _ (Resp.fail e) => e = Errno.ENOSYS || e = Errno.EPERM
  | Event.getentropy _ _ (Resp.fail e) => e = Errno.ENOSYS || e = Errno.EPERM
  | _ => false

/-- What a call made with `raise` unset must not do: check for signals, release the GIL,
or construct an error object. -/
def Event.needsRaise (e : Event) : Bool :=
  e.isSignalCheck || e.releasesLock || e.makesError

/-- The bytes an event delivered into the buffer. -/
def Event.delivered : Event → List Nat
  | Event.getrandom _ _ _ (Resp.data got) => got
  | Event.getentropy _ _ (Resp.data got) => got
  | Event.Py_read _ _ _ (Resp.data got) => got
  | Event.read _ _ _ (Resp.data got) => got
  | _ => []

/-- The bytes a list of events delivered, in order. -/
def delivered : List Event → List Nat
  | [] => []
  | e :: events => e.delivered ++ delivered events

/-! ## Predicates on runs -/

/-- Outside `dest .. dest + size - 1` the run left the memory as it was. -/
def Framed (w : World) (dest : Nat) (size : Int) (o : Out) : Prop :=
  ∀ i, i < dest ∨ dest + size.toNat ≤ i → o.w.mem i = w.mem i

/-- The bytes the events of the run delivered are `size` in number and are, in order, the
content of `dest .. dest + size - 1` after the run. -/
def Filled (dest : Nat) (size : Int) (o : Out) : Prop :=
  (delivered o.events).length = size.toNat ∧
    ∀ i, i < size.toNat → o.w.mem (dest + i) = (delivered o.events).getD i 0

/-- The bytes delivered by the backend that completed a run of `pyurandom`: those of the
device file when it was used, those of the syscall otherwise. -/
def completedBy (events : List Event) : List Nat :=
  if events.any Event.isDevice then delivered (events.filter Event.isDevice)
  else delivered events

/-- The bytes delivered by the backend that completed the run are `size` in number, they
are in order the content of `buffer[0 .. size-1]` after the run, and every byte outside
that range is as it was in `w`. -/
def FilledBy (w : World) (size : Int) (o : Out) : Prop :=
  (completedBy o.events).length = size.toNat ∧
  (∀ i, i < size.toNat → o.w.mem i = (completedBy o.events).getD i 0) ∧
  ∀ i, size.toNat ≤ i → o.w.mem i = w.mem i

/-- A call of `getrandom`, `getentropy` or `read` that failed with `EINTR`. -/
def Event.interrupted : Event → Bool
  | Event.getrandom _ _ _ (Resp.fail Errno.EINTR) => true
  | Event.getentropy _ _ (Resp.fail Errno.EINTR) => true
  | Event.read _ _ _ (Resp.fail Errno.EINTR) => true
  | _ => false

/-- The event `e2` is the same call as `e1`, with the same arguments. -/
def Event.sameCall : Event → Event → Bool
  | Event.getrandom d1 n1 f1 _, Event.getrandom d2 n2 f2 _ => d1 = d2 && n1 = n2 && f1 = f2
  | Event.getentropy d1 n1 _, Event.getentropy d2 n2 _ => d1 = d2 && n1 = n2
  | Event.read fd1 d1 n1 _, Event.read fd2 d2 n2 _ => fd1 = fd2 && d1 = d2 && n1 = n2
  | _, _ => false

/-- Every interrupted call of the run is followed at once by the same call again; a run
that has returned does not end on an interrupted call. -/
def retriedDirectly : List Event → Bool → Bool
  | [], _ => true
  | [e], returned => !(e.interrupted && returned)
  | e1 :: e2 :: es, returned =>
    (!e1.interrupted || e1.sameCall e2) && retriedDirectly (e2 :: es) returned

/-- What holds of the events `dev_urandom` performs around its read loop: they are device
operations that deliver no byte, are no interrupted call and, without `raise`, need no
`raise`. -/
def DevStep (raise : Bool) (e : Event) : Prop :=
  e.isDevice = true ∧ e.delivered = [] ∧ e.interrupted = false ∧
    (raise = false → e.needsRaise = false)

/-- How `pyurandom` uses the result `res` of its syscall backend to produce its own
result `out`: the four results of the backend are told apart, the device file is used
exactly after the result `0`, and `out` is `0` or `-1`. -/
def Dispatched (size : Int) (raise : Bool) (res out : Out) : Prop :=
  (res.ret = none ∨ res.ret = some 1 ∨ res.ret = some 0 ∨ res.ret = some (-1)) ∧
  (∀ e ∈ res.events, e.isDevice = false) ∧
  (res.ret = some 0 → out = emit res.events (dev_urandom res.w size raise res.rest)) ∧
  (res.ret = some (-1) → out = res) ∧
  (res.ret = some 1 → out = { res with ret := some 0 }) ∧
  (res.ret = none → out = res) ∧
  (out.ret ≠ none → (out.events.any Event.isDevice = true ↔ res.ret = some 0)) ∧
  (out.ret = none ∨ out.ret = some 0 ∨ out.ret = some (-1))

/-- The arguments of one call of a syscall backend and the responses it finds. -/
structure Call where
  size : Int
  blocking : Bool
  raise : Bool
  script : List Resp

/-- Successive calls of `py_getrandom`, each in the world the one before left: the last
world and the results in order. -/
def py_getrandom_calls (sun : Bool) (w : World) : List Call → World × List Out
  | [] => (w, [])
  | c :: cs =>
    let o := py_getrandom sun w c.size c.blocking c.raise c.script
    ((py_getrandom_calls sun o.w cs).1, o :: (py_getrandom_calls sun o.w cs).2)

/-- Successive calls of `py_getentropy`, each in the world the one before left. -/
def py_getentropy_calls (w : World) : List Call → World × List Out
  | [] => (w, [])
  | c :: cs =>
    let o := py_getentropy w c.size c.raise c.script
    ((py_getentropy_calls o.w cs).1, o :: (py_getentropy_calls o.w cs).2)

/-! ## Unfolding the loops -/

/-- One unfolding of `py_getrandom_loop`. -/
theorem py_getrandom_loop_unfold (sun blocking raise : Bool) (w : World) (dest : Nat) (size : Int)
    (script : List Resp) :
    py_getrandom_loop sun blocking raise w dest size script =
  if 0 < size then
    let n : Int := getrandom_chunk sun size
    let flags : Nat := getrandom_flags blocking
    match script with
    | Resp.data ready :: rest =>
      let got := ready.take n.toNat
      emit (allowThreads raise (Event.getrandom dest n flags (Resp.data got)))
        (py_getrandom_loop sun blocking raise
          { w with errno := Errno.ok, mem := store w.mem dest got }
          (dest + got.length) (size - got.length) rest)
    | Resp.fail e :: rest =>
      let w1 : World := { w with errno := e }
      let call := allowThreads raise (Event.getrandom dest n flags (Resp.fail e))
      if e = Errno.ENOSYS ∨ e = Errno.EPERM then
        { ret := some 0, w := { w1 with getrandom_works := false }, events := call, rest := rest }
      else if e = Errno.EAGAIN ∧ raise = false ∧ blocking = false then
        { ret := some 0, w := w1, events := call, rest := rest }
      else if e = Errno.EINTR then
        if raise then
          match rest with
          | Resp.signals raised :: rest1 =>
            if raised then
              { ret := some (-1), w := w1, events := call ++ [Event.PyErr_CheckSignals true],
                rest := rest1 }
            else
              emit (call ++ [Event.PyErr_CheckSignals false])
                (py_getrandom_loop sun blocking raise w1 dest size rest1)
          | _ => emit call (stuck w1 rest)
        else
          emit call (py_getrandom_loop sun blocking raise w1 dest size rest)
      else
        { ret := some (-1), w := w1,
          events := call ++ (if raise then [Event.PyErr_SetFromErrno e] else []),
          rest := rest }
    | _ => stuck w script
  else
    { ret := some 1, w := w, events := [], rest := script } := by
  cases script with
  | nil => rfl
  | cons r rest =>
    cases r with
    | fail e =>
      cases rest with
      | nil => rfl
      | cons r1 rest1 => cases r1 <;> rfl
    | _ => rfl

/-- One unfolding of `py_getentropy_loop`. -/
theorem py_getentropy_loop_unfold (raise : Bool) (w : World) (dest : Nat) (size : Int)
    (script : List Resp) :
    py_getentropy_loop raise w dest size script =
  if 0 < size then
    let len : Int := min size 256
    match script with
    | Resp.data ready :: rest =>
      let got := fillExact ready len.toNat
      emit (allowThreads raise (Event.getentropy dest len (Resp.data got)))
        (py_getentropy_loop raise { w with mem := store w.mem dest got }
          (dest + len.toNat) (size - len) rest)
    | Resp.fail e :: rest =>
      let w1 : World := { w with errno := e }
      let call := allowThreads raise (Event.getentropy dest len (Resp.fail e))
      if e = Errno.ENOSYS ∨ e = Errno.EPERM then
        { ret := some 0, w := { w1 with getentropy_works := false }, events := call, rest := rest }
      else if e = Errno.EINTR then
        if raise then
          match rest with
          | Resp.signals raised :: rest1 =>
            if raised then
              { ret := some (-1), w := w1, events := call ++ [Event.PyErr_CheckSignals true],
                rest := rest1 }
            else
              emit (call ++ [Event.PyErr_CheckSignals false])
                (py_getentropy_loop raise w1 dest size rest1)
          | _ => emit call (stuck w1 rest)
        else
          emit call (py_getentropy_loop raise w1 dest size rest)
      else
        { ret := some (-1), w := w1,
          events := call ++ (if raise then [Event.PyErr_SetFromErrno e] else []),
          rest := rest }
    | _ => stuck w script
  else
    { ret := some 1, w := w, events := [], rest := script } := by
  cases script with
  | nil => rfl
  | cons r rest =>
    cases r with
    | fail e =>
      cases rest with
      | nil => rfl
      | cons r1 rest1 => cases r1 <;> rfl
    | _ => rfl

/-! ## Properties of the generator -/

theorem store_apply_lt (mem : Nat → Nat) (off : Nat) (chunk : List Nat) (i : Nat)
    (h : i < off) : store mem off chunk i = mem i := by
  unfold store
  rw [if_neg]
  omega

theorem store_apply_ge (mem : Nat → Nat) (off : Nat) (chunk : List Nat) (i : Nat)
    (h : off + chunk.length ≤ i) : store mem off chunk i = mem i := by
  unfold store
  rw [if_neg]
  omega

theorem store_apply_mid (mem : Nat → Nat) (off : Nat) (chunk : List Nat) (i : Nat)
    (h1 : off ≤ i) (h2 : i < off + chunk.length) :
    store mem off chunk i = chunk.getD (i - off) 0 := by
  unfold store
  rw [if_pos ⟨h1, h2⟩]

theorem lcg_step_eq (x : Nat) :
    (2531011 + (x * 214013) % 2 ^ 32) % 2 ^ 32 = (x * 214013 + 2531011) % 2 ^ 32 := by
  omega

theorem lcgState_succ (x0 k : Nat) :
    lcgState x0 (k + 1) = (lcgState x0 k * 214013 + 2531011) % 2 ^ 32 := by
  rw [lcgState]

theorem lcg_byte_eq (x : Nat) : (x >>> 16) &&& 0xff = x / 2 ^ 16 % 2 ^ 8 := by
  rw [Nat.shiftRight_eq_div_pow]
  exact Nat.and_pow_two_sub_one_eq_mod (x / 2 ^ 16) 8

theorem lcg_loop_spec (x0 : Nat) (n : Nat) :
    ∀ (k index : Nat) (mem : Nat → Nat) (i : Nat),
      lcg_loop (lcgState x0 k) mem index n i =
        if index ≤ i ∧ i < index + n then lcgState x0 (k + 1 + (i - index)) / 2 ^ 16 % 2 ^ 8
        else mem i := by
  induction n with
  | zero =>
    intro k index mem i
    rw [lcg_loop, if_neg (by omega)]
  | succ n ih =>
    intro k index mem i
    rw [lcg_loop]
    rw [lcg_step_eq, lcg_byte_eq, ← lcgState_succ, ih (k + 1) (index + 1)]
    by_cases h1 : index + 1 ≤ i ∧ i < index + 1 + n
    · rw [if_pos h1, if_pos (by omega)]
      have e : k + 1 + 1 + (i - (index + 1)) = k + 1 + (i - index) := by omega
      rw [e]
    · rw [if_neg h1]
      by_cases h2 : i = index
      · subst h2
        rw [if_pos (by omega), store_apply_mid _ _ _ _ (by omega) (by simp)]
        rw [Nat.sub_self, Nat.add_zero, List.getD_cons_zero]
      · rw [if_neg (by omega)]
        by_cases h3 : i < index
        · exact store_apply_lt _ _ _ _ h3
        · exact store_apply_ge _ _ _ _ (by simp; omega)

theorem lcg_urandom_apply (x0 n : Nat) (mem : Nat → Nat) (i : Nat) :
    lcg_urandom x0 mem n i =
      if i < n then lcgState x0 (i + 1) / 2 ^ 16 % 2 ^ 8 else mem i := by
  have h := lcg_loop_spec x0 n 0 0 mem i
  rw [show lcgState x0 0 = x0 from rfl] at h
  unfold lcg_urandom
  rw [h]
  by_cases hi : i < n
  · rw [if_pos hi, if_pos (by omega), Nat.sub_zero, Nat.add_comm]
  · rw [if_neg hi, if_neg (by omega)]

theorem bytes_congr (f g : Nat → Nat) (n : Nat) (h : ∀ i, i < n → f i = g i) :
    bytes f n = bytes g n := by
  unfold bytes
  apply List.map_congr_left
  intro i hi
  exact h i (List.mem_range.mp hi)

/-- C4: `lcg_urandom(x0, buffer, n)` writes exactly the bytes `0 .. n-1` of the buffer, byte
`i` being bits 16..23 of `x(i+1)` where `x(0) = x0` and
`x(k+1) = (x(k) * 214013 + 2531011) mod 2^32`; what it writes depends on `x0` and `n` only,
and for `x0 = 1`, `n = 4` it is `[41, 35, 190, 132]`. -/
theorem lcg_urandom_spec (x0 n : Nat) (mem : Nat → Nat) :
    (lcgState x0 0 = x0 ∧
      ∀ k, lcgState x0 (k + 1) = (lcgState x0 k * 214013 + 2531011) % 2 ^ 32) ∧
    (∀ i, i < n → lcg_urandom x0 mem n i = lcgState x0 (i + 1) / 2 ^ 16 % 2 ^ 8) ∧
    (∀ i, n ≤ i → lcg_urandom x0 mem n i = mem i) ∧
    (∀ other : Nat → Nat, bytes (lcg_urandom x0 mem n) n = bytes (lcg_urandom x0 other n) n) ∧
    bytes (lcg_urandom 1 mem 4) 4 = [41, 35, 190, 132] := by
  refine ⟨⟨rfl, lcgState_succ x0⟩, ?_, ?_, ?_, ?_⟩
  · intro i hi
    rw [lcg_urandom_apply, if_pos hi]
  · intro i hi
    rw [lcg_urandom_apply, if_neg (by omega)]
  · intro other
    apply bytes_congr
    intro i hi
    rw [lcg_urandom_apply, lcg_urandom_apply, if_pos hi, if_pos hi]
  · have e : bytes (lcg_urandom 1 mem 4) 4 = bytes (lcg_urandom 1 (fun _ => 0) 4) 4 := by
      apply bytes_congr
      intro i hi
      rw [lcg_urandom_apply, lcg_urandom_apply, if_pos hi, if_pos hi]
    rw [e]
    decide

/-- C4 at `x0 = 1`, `n = 4`: the conformance vector, and the byte after it untouched. -/
theorem lcg_urandom_spec_witness :
    lcg_urandom 1 (fun _ => 0) 4 7 = 0 ∧
      bytes (lcg_urandom 1 (fun _ => 0) 4) 4 = [41, 35, 190, 132] :=
  ⟨(lcg_urandom_spec 1 4 (fun _ => 0)).2.2.1 7 (by decide),
   (lcg_urandom_spec 1 4 (fun _ => 0)).2.2.2.2⟩

/-! ## The argument check of `pyurandom` -/

/-- C7: for `size <= 0` both public entry points return at once: no response of the
environment is read, the world (the two latches, the descriptor cache, every byte of the
buffer) is unchanged, and no event is performed other than, for `size < 0`, the
`PyErr_Format(PyExc_ValueError, ...)` that goes with the result `-1`; for `size == 0` the
result is `0`. -/
theorem pyurandom_nonpositive (b : Build) (w : World) (size : Int) (script : List Resp)
    (h : size ≤ 0) :
    _PyOS_URandom b w size script =
        { ret := some (if size = 0 then 0 else -1), w := w,
          events := if size = 0 then [] else [Event.PyErr_Format_ValueError],
          rest := script } ∧
    _PyOS_URandomNonblock b w size script =
        { ret := some (if size = 0 then 0 else -1), w := w,
          events := if size = 0 then [] else [Event.PyErr_Format_ValueError],
          rest := script } := by
  unfold _PyOS_URandom _PyOS_URandomNonblock pyurandom
  by_cases h0 : size = 0
  · subst h0
    simp
  · have hneg : size < 0 := by omega
    simp [hneg, h0]

/-- C7 at `size = -3` on a `getrandom` build whose kernel has an answer ready. -/
theorem pyurandom_nonpositive_witness :
    (_PyOS_URandom (Build.getrandom false) (World.init fun _ => 7) (-3)
        [Resp.data [1, 2, 3]]).ret = some (-1) ∧
    (_PyOS_URandomNonblock (Build.getrandom false) (World.init fun _ => 7) (-3)
        [Resp.data [1, 2, 3]]).rest = [Resp.data [1, 2, 3]] := by
  have h := pyurandom_nonpositive (Build.getrandom false) (World.init fun _ => 7) (-3)
    [Resp.data [1, 2, 3]] (by decide)
  rw [h.1, h.2]
  exact ⟨rfl, rfl⟩

/-! ## Runs of the loops -/

theorem emit_events (es : List Event) (o : Out) : (emit es o).events = es ++ o.events := rfl

theorem emit_ret (es : List Event) (o : Out) : (emit es o).ret = o.ret := rfl

theorem emit_w (es : List Event) (o : Out) : (emit es o).w = o.w := rfl

theorem emit_rest (es : List Event) (o : Out) : (emit es o).rest = o.rest := rfl

/-- Induction over the runs of `py_getrandom_loop`: a property of (start, result) that
holds at each way out of the loop and is carried back over each iteration holds of
every run. -/
theorem py_getrandom_loop_run (sun blocking raise : Bool)
    (P : World → Nat → Int → Out → Prop)
    (done : ∀ (w : World) (dest : Nat) (size : Int) (script : List Resp), ¬0 < size →
      P w dest size { ret := some 1, w := w, events := [], rest := script })
    (stuck0 : ∀ (w : World) (dest : Nat) (size : Int) (script : List Resp), 0 < size → P w dest size (stuck w script))
    (data : ∀ (w : World) (dest : Nat) (size : Int) (ready : List Nat) (o : Out), 0 < size →
      P { w with errno := Errno.ok,
                 mem := store w.mem dest (ready.take (getrandom_chunk sun size).toNat) }
        (dest + (ready.take (getrandom_chunk sun size).toNat).length)
        (size - (ready.take (getrandom_chunk sun size).toNat).length) o →
      P w dest size
        (emit (allowThreads raise (Event.getrandom dest (getrandom_chunk sun size)
            (getrandom_flags blocking)
            (Resp.data (ready.take (getrandom_chunk sun size).toNat)))) o))
    (latch : ∀ (w : World) (dest : Nat) (size : Int) (e : Errno) (rest : List Resp), 0 < size → e = Errno.ENOSYS ∨ e = Errno.EPERM →
      P w dest size
        { ret := some 0, w := { w with errno := e, getrandom_works := false },
          events := allowThreads raise (Event.getrandom dest (getrandom_chunk sun size)
            (getrandom_flags blocking) (Resp.fail e)),
          rest := rest })
    (again : ∀ (w : World) (dest : Nat) (size : Int) (rest : List Resp), 0 < size → raise = false → blocking = false →
      P w dest size
        { ret := some 0, w := { w with errno := Errno.EAGAIN },
          events := allowThreads raise (Event.getrandom dest (getrandom_chunk sun size)
            (getrandom_flags blocking) (Resp.fail Errno.EAGAIN)),
          rest := rest })
    (signal : ∀ (w : World) (dest : Nat) (size : Int) (rest : List Resp), 0 < size → raise = true →
      P w dest size
        { ret := some (-1), w := { w with errno := Errno.EINTR },
          events := allowThreads raise (Event.getrandom dest (getrandom_chunk sun size)
            (getrandom_flags blocking) (Resp.fail Errno.EINTR)) ++
              [Event.PyErr_CheckSignals true],
          rest := rest })
    (checked : ∀ (w : World) (dest : Nat) (size : Int) (o : Out), 0 < size → raise = true →
      P { w with errno := Errno.EINTR } dest size o →
      P w dest size
        (emit (allowThreads raise (Event.getrandom dest (getrandom_chunk sun size)
            (getrandom_flags blocking) (Resp.fail Errno.EINTR)) ++
              [Event.PyErr_CheckSignals false]) o))
    (unchecked : ∀ (w : World) (dest : Nat) (size : Int) (rest : List Resp), 0 < size → raise = true →
      P w dest size
        (emit (allowThreads raise (Event.getrandom dest (getrandom_chunk sun size)
            (getrandom_flags blocking) (Resp.fail Errno.EINTR)))
          (stuck { w with errno := Errno.EINTR } rest)))
    (retry : ∀ (w : World) (dest : Nat) (size : Int) (o : Out), 0 < size → raise = false →
      P { w with errno := Errno.EINTR } dest size o →
      P w dest size
        (emit (allowThreads raise (Event.getrandom dest (getrandom_chunk sun size)
            (getrandom_flags blocking) (Resp.fail Errno.EINTR))) o))
    (error : ∀ (w : World) (dest : Nat) (size : Int) (e : Errno) (rest : List Resp), 0 < size →
      ¬(e = Errno.ENOSYS ∨ e = Errno.EPERM) →
      ¬(e = Errno.EAGAIN ∧ raise = false ∧ blocking = false) → e ≠ Errno.EINTR →
      P w dest size
        { ret := some (-1), w := { w with errno := e },
          events := allowThreads raise (Event.getrandom dest (getrandom_chunk sun size)
            (getrandom_flags blocking) (Resp.fail e)) ++
              (if raise then [Event.PyErr_SetFromErrno e] else []),
          rest := rest })
    (w : World) (dest : Nat) (size : Int) (script : List Resp) :
    P w dest size (py_getrandom_loop sun blocking raise w dest size script) := by
  induction w, dest, size, script using py_getrandom_loop.induct sun blocking raise with
  | case1 w dest size hs n ready rest got ih =>
    rw [py_getrandom_loop_unfold, if_pos hs]
    exact data w dest size ready _ hs ih
  | case2 w dest size hs e rest he =>
    rw [py_getrandom_loop_unfold, if_pos hs]
    simp only [if_pos he]
    exact latch w dest size e rest hs he
  | case3 w dest size hs e rest h1 h2 =>
    rw [py_getrandom_loop_unfold, if_pos hs]
    simp only [if_neg h1, if_pos h2]
    obtain ⟨he, hr, hb⟩ := h2
    subst he
    exact again w dest size rest hs hr hb
  | case4 w dest size hs hr rest1 h1 h2 =>
    rw [py_getrandom_loop_unfold, if_pos hs]
    simp only [if_neg h1, if_neg h2, if_true, if_pos hr]
    exact signal w dest size rest1 hs hr
  | case5 w dest size hs hr raised rest1 hraised w1 h1 h2 ih =>
    rw [py_getrandom_loop_unfold, if_pos hs]
    simp only [if_neg h1, if_neg h2, if_true, if_pos hr, if_neg hraised]
    exact checked w dest size _ hs hr ih
  | case6 w dest size hs rest hr hrest h1 h2 =>
    rw [py_getrandom_loop_unfold, if_pos hs]
    simp only [if_neg h1, if_neg h2, if_true, if_pos hr]
    exact unchecked w dest size rest hs hr
  | case7 w dest size hs rest hr w1 h1 h2 ih =>
    rw [py_getrandom_loop_unfold, if_pos hs]
    simp only [if_neg h1, if_neg h2, if_true, if_neg hr]
    exact retry w dest size _ hs (by simpa using hr) ih
  | case8 w dest size hs e rest h1 h2 h3 =>
    rw [py_getrandom_loop_unfold, if_pos hs]
    simp only [if_neg h1, if_neg h2, if_neg h3]
    exact error w dest size e rest hs h1 h2 h3
  | case9 t w dest size hs h1 h2 =>
    rw [py_getrandom_loop_unfold, if_pos hs]
    simp only []
    exact stuck0 w dest size t hs
  | case10 t w dest size hs =>
    rw [py_getrandom_loop_unfold, if_neg hs]
    exact done w dest size t hs

/-- Induction over the runs of `py_getentropy_loop`. -/
theorem py_getentropy_loop_run (raise : Bool)
    (P : World → Nat → Int → Out → Prop)
    (done : ∀ (w : World) (dest : Nat) (size : Int) (script : List Resp), ¬0 < size →
      P w dest size { ret := some 1, w := w, events := [], rest := script })
    (stuck0 : ∀ (w : World) (dest : Nat) (size : Int) (script : List Resp), 0 < size →
      P w dest size (stuck w script))
    (data : ∀ (w : World) (dest : Nat) (size : Int) (ready : List Nat) (o : Out), 0 < size →
      P { w with mem := store w.mem dest (fillExact ready (min size 256).toNat) }
        (dest + (min size 256).toNat) (size - min size 256) o →
      P w dest size
        (emit (allowThreads raise (Event.getentropy dest (min size 256)
            (Resp.data (fillExact ready (min size 256).toNat)))) o))
    (latch : ∀ (w : World) (dest : Nat) (size : Int) (e : Errno) (rest : List Resp),
      0 < size → e = Errno.ENOSYS ∨ e = Errno.EPERM →
      P w dest size
        { ret := some 0, w := { w with errno := e, getentropy_works := false },
          events := allowThreads raise (Event.getentropy dest (min size 256) (Resp.fail e)),
          rest := rest })
    (signal : ∀ (w : World) (dest : Nat) (size : Int) (rest : List Resp), 0 < size →
      raise = true →
      P w dest size
        { ret := some (-1), w := { w with errno := Errno.EINTR },
          events := allowThreads raise (Event.getentropy dest (min size 256)
            (Resp.fail Errno.EINTR)) ++ [Event.PyErr_CheckSignals true],
          rest := rest })
    (checked : ∀ (w : World) (dest : Nat) (size : Int) (o : Out), 0 < size → raise = true →
      P { w with errno := Errno.EINTR } dest size o →
      P w dest size
        (emit (allowThreads raise (Event.getentropy dest (min size 256)
            (Resp.fail Errno.EINTR)) ++ [Event.PyErr_CheckSignals false]) o))
    (unchecked : ∀ (w : World) (dest : Nat) (size : Int) (rest : List Resp), 0 < size →
      raise = true →
      P w dest size
        (emit (allowThreads raise (Event.getentropy dest (min size 256)
            (Resp.fail Errno.EINTR)))
          (stuck { w with errno := Errno.EINTR } rest)))
    (retry : ∀ (w : World) (dest : Nat) (size : Int) (o : Out), 0 < size → raise = false →
      P { w with errno := Errno.EINTR } dest size o →
      P w dest size
        (emit (allowThreads raise (Event.getentropy dest (min size 256)
            (Resp.fail Errno.EINTR))) o))
    (error : ∀ (w : World) (dest : Nat) (size : Int) (e : Errno) (rest : List Resp),
      0 < size → ¬(e = Errno.ENOSYS ∨ e = Errno.EPERM) → e ≠ Errno.EINTR →
      P w dest size
        { ret := some (-1), w := { w with errno := e },
          events := allowThreads raise (Event.getentropy dest (min size 256) (Resp.fail e)) ++
              (if raise then [Event.PyErr_SetFromErrno e] else []),
          rest := rest })
    (w : World) (dest : Nat) (size : Int) (script : List Resp) :
    P w dest size (py_getentropy_loop raise w dest size script) := by
  induction w, dest, size, script using py_getentropy_loop.induct raise with
  | case1 w dest size hs len ready rest got ih =>
    rw [py_getentropy_loop_unfold, if_pos hs]
    exact data w dest size ready _ hs ih
  | case2 w dest size hs e rest he =>
    rw [py_getentropy_loop_unfold, if_pos hs]
    simp only [if_pos he]
    exact latch w dest size e rest hs he
  | case3 w dest size hs hr rest1 h1 =>
    rw [py_getentropy_loop_unfold, if_pos hs]
    simp only [if_neg h1, if_true, if_pos hr]
    exact signal w dest size rest1 hs hr
  | case4 w dest size hs hr raised rest1 hraised w1 h1 ih =>
    rw [py_getentropy_loop_unfold, if_pos hs]
    simp only [if_neg h1, if_true, if_pos hr, if_neg hraised]
    exact checked w dest size _ hs hr ih
  | case5 w dest size hs rest hr hrest h1 =>
    rw [py_getentropy_loop_unfold, if_pos hs]
    simp only [if_neg h1, if_true, if_pos hr]
    exact unchecked w dest size rest hs hr
  | case6 w dest size hs rest hr w1 h1 ih =>
    rw [py_getentropy_loop_unfold, if_pos hs]
    simp only [if_neg h1, if_true, if_neg hr]
    exact retry w dest size _ hs (by simpa using hr) ih
  | case7 w dest size hs e rest h1 h3 =>
    rw [py_getentropy_loop_unfold, if_pos hs]
    simp only [if_neg h1, if_neg h3]
    exact error w dest size e rest hs h1 h3
  | case8 t w dest size hs h1 h2 =>
    rw [py_getentropy_loop_unfold, if_pos hs]
    simp only []
    exact stuck0 w dest size t hs
  | case9 t w dest size hs =>
    rw [py_getentropy_loop_unfold, if_neg hs]
    exact done w dest size t hs

/-- Induction over the runs of the `_Py_read` loop of `dev_urandom`. -/
theorem dev_urandom_read_run (fd : Int)
    (P : World → Nat → Int → Out → Prop)
    (stuck0 : ∀ (w : World) (dest : Nat) (size : Int) (script : List Resp),
      P w dest size (stuck w script))
    (empty : ∀ (w : World) (dest : Nat) (size : Int) (ready : List Nat) (rest : List Resp),
      (ready.take (size_t size)).length = 0 →
      P w dest size
        { ret := some (-1), w := w,
          events := [Event.Py_read fd dest (size_t size) (Resp.data (ready.take (size_t size))),
                     Event.PyErr_Format_RuntimeError size],
          rest := rest })
    (more : ∀ (w : World) (dest : Nat) (size : Int) (ready : List Nat) (o : Out),
      (ready.take (size_t size)).length ≠ 0 →
      0 < size - (ready.take (size_t size)).length →
      P { w with mem := store w.mem dest (ready.take (size_t size)) }
        (dest + (ready.take (size_t size)).length)
        (size - (ready.take (size_t size)).length) o →
      P w dest size
        (emit [Event.Py_read fd dest (size_t size) (Resp.data (ready.take (size_t size)))] o))
    (last : ∀ (w : World) (dest : Nat) (size : Int) (ready : List Nat) (rest : List Resp),
      (ready.take (size_t size)).length ≠ 0 →
      ¬0 < size - (ready.take (size_t size)).length →
      P w dest size
        { ret := some 0, w := { w with mem := store w.mem dest (ready.take (size_t size)) },
          events := [Event.Py_read fd dest (size_t size) (Resp.data (ready.take (size_t size)))],
          rest := rest })
    (error : ∀ (w : World) (dest : Nat) (size : Int) (e : Errno) (rest : List Resp),
      P w dest size
        { ret := some (-1), w := { w with errno := e },
          events := [Event.Py_read fd dest (size_t size) (Resp.fail e)], rest := rest })
    (w : World) (dest : Nat) (size : Int) (script : List Resp) :
    P w dest size (dev_urandom_read fd w dest size script) := by
  induction w, dest, size, script using dev_urandom_read.induct fd with
  | case1 w dest size ready rest got h =>
    unfold dev_urandom_read
    simp only [if_pos h]
    exact empty w dest size ready rest h
  | case2 w dest size ready rest got h w1 hs ih =>
    unfold dev_urandom_read
    simp only [if_neg h, if_pos hs]
    exact more w dest size ready _ h hs ih
  | case3 w dest size ready rest got h hs =>
    unfold dev_urandom_read
    simp only [if_neg h, if_neg hs]
    exact last w dest size ready rest h hs
  | case4 w dest size e rest =>
    unfold dev_urandom_read
    exact error w dest size e rest
  | case5 t w dest size h1 h2 =>
    unfold dev_urandom_read
    simp only []
    exact stuck0 w dest size t

/-- Induction over the runs of the `read` loop of `dev_urandom`. -/
theorem dev_urandom_read_noraise_run (fd : Int)
    (P : World → Nat → Int → Out → Prop)
    (done : ∀ (w : World) (dest : Nat) (size : Int) (script : List Resp), ¬0 < size →
      P w dest size { ret := some 0, w := w, events := [Event.close fd], rest := script })
    (stuck0 : ∀ (w : World) (dest : Nat) (size : Int) (script : List Resp), 0 < size →
      P w dest size (stuck w script))
    (empty : ∀ (w : World) (dest : Nat) (size : Int) (ready : List Nat) (rest : List Resp),
      0 < size → (ready.take (size_t size)).length = 0 →
      P w dest size
        { ret := some (-1), w := w,
          events := [Event.read fd dest (size_t size) (Resp.data (ready.take (size_t size))),
                     Event.close fd],
          rest := rest })
    (more : ∀ (w : World) (dest : Nat) (size : Int) (ready : List Nat) (o : Out),
      0 < size → (ready.take (size_t size)).length ≠ 0 →
      P { w with mem := store w.mem dest (ready.take (size_t size)) }
        (dest + (ready.take (size_t size)).length)
        (size - (ready.take (size_t size)).length) o →
      P w dest size
        (emit [Event.read fd dest (size_t size) (Resp.data (ready.take (size_t size)))] o))
    (retry : ∀ (w : World) (dest : Nat) (size : Int) (o : Out), 0 < size →
      P { w with errno := Errno.EINTR } dest size o →
      P w dest size
        (emit [Event.read fd dest (size_t size) (Resp.fail Errno.EINTR)] o))
    (error : ∀ (w : World) (dest : Nat) (size : Int) (e : Errno) (rest : List Resp),
      0 < size → e ≠ Errno.EINTR →
      P w dest size
        { ret := some (-1), w := { w with errno := e },
          events := [Event.read fd dest (size_t size) (Resp.fail e), Event.close fd],
          rest := rest })
    (w : World) (dest : Nat) (size : Int) (script : List Resp) :
    P w dest size (dev_urandom_read_noraise fd w dest size script) := by
  induction w, dest, size, script using dev_urandom_read_noraise.induct fd with
  | case1 w dest size hs ready rest got h =>
    unfold dev_urandom_read_noraise
    simp only [if_pos hs, if_pos h]
    exact empty w dest size ready rest hs h
  | case2 w dest size hs ready rest got h ih =>
    unfold dev_urandom_read_noraise
    simp only [if_pos hs, if_neg h]
    exact more w dest size ready _ hs h ih
  | case3 w dest size hs rest w1 ih =>
    unfold dev_urandom_read_noraise
    simp only [if_pos hs, if_true]
    exact retry w dest size _ hs ih
  | case4 w dest size hs e rest h =>
    unfold dev_urandom_read_noraise
    simp only [if_pos hs, if_neg h]
    exact error w dest size e rest hs h
  | case5 t w dest size hs h1 h2 =>
    unfold dev_urandom_read_noraise
    simp only [if_pos hs]
    exact stuck0 w dest size t hs
  | case6 t w dest size hs =>
    unfold dev_urandom_read_noraise
    simp only [if_neg hs]
    exact done w dest size t hs

theorem allowThreads_mem (raise : Bool) (call e : Event) (he : e ∈ allowThreads raise call) :
    e = call ∨ (raise = true ∧
      (e = Event.Py_BEGIN_ALLOW_THREADS ∨ e = Event.Py_END_ALLOW_THREADS)) := by
  cases raise
  · simp only [allowThreads, Bool.false_eq_true, if_false, List.mem_singleton] at he
    exact Or.inl he
  · simp only [allowThreads, if_true, List.mem_cons, List.mem_singleton, List.not_mem_nil,
      or_false] at he
    rcases he with he | he | he
    · exact Or.inr ⟨rfl, Or.inl he⟩
    · exact Or.inl he
    · exact Or.inr ⟨rfl, Or.inr he⟩

/-- An event of a syscall backend is no device operation and, without `raise`, nothing
that needs `raise`. -/
theorem sysEvent_allowThreads (raise : Bool) (call e : Event)
    (he : e ∈ allowThreads raise call) (h1 : call.isDevice = false)
    (h2 : call.needsRaise = false) :
    e.isDevice = false ∧ (raise = false → e.needsRaise = false) := by
  rcases allowThreads_mem raise call e he with h | ⟨hr, h | h⟩
  · subst h
    exact ⟨h1, fun _ => h2⟩
  · subst h
    exact ⟨rfl, fun h => by rw [hr] at h; cases h⟩
  · subst h
    exact ⟨rfl, fun h => by rw [hr] at h; cases h⟩

theorem py_getrandom_loop_events (sun blocking raise : Bool) (w : World) (dest : Nat)
    (size : Int) (script : List Resp) :
    ∀ e ∈ (py_getrandom_loop sun blocking raise w dest size script).events,
      e.isDevice = false ∧ (raise = false → e.needsRaise = false) := by
  apply py_getrandom_loop_run sun blocking raise
    (fun _ _ _ o => ∀ e ∈ o.events, e.isDevice = false ∧ (raise = false → e.needsRaise = false))
  · intro w dest size script _ e he
    cases he
  · intro w dest size script _ e he
    cases he
  · intro w dest size ready o _ ih e he
    rcases List.mem_append.mp he with h | h
    · exact sysEvent_allowThreads _ _ e h rfl rfl
    · exact ih e h
  · intro w dest size e0 rest _ _ e he
    exact sysEvent_allowThreads _ _ e he rfl rfl
  · intro w dest size rest _ _ _ e he
    exact sysEvent_allowThreads _ _ e he rfl rfl
  · intro w dest size rest _ hr e he
    rcases List.mem_append.mp he with h | h
    · exact sysEvent_allowThreads _ _ e h rfl rfl
    · rw [List.mem_singleton] at h
      subst h
      exact ⟨rfl, fun h => by rw [hr] at h; cases h⟩
  · intro w dest size o _ hr ih e he
    rcases List.mem_append.mp he with h | h
    · rcases List.mem_append.mp h with h | h
      · exact sysEvent_allowThreads _ _ e h rfl rfl
      · rw [List.mem_singleton] at h
        subst h
        exact ⟨rfl, fun h => by rw [hr] at h; cases h⟩
    · exact ih e h
  · intro w dest size rest _ _ e he
    rcases List.mem_append.mp he with h | h
    · exact sysEvent_allowThreads _ _ e h rfl rfl
    · cases h
  · intro w dest size o _ _ ih e he
    rcases List.mem_append.mp he with h | h
    · exact sysEvent_allowThreads _ _ e h rfl rfl
    · exact ih e h
  · intro w dest size e0 rest _ _ _ _ e he
    rcases List.mem_append.mp he with h | h
    · exact sysEvent_allowThreads _ _ e h rfl rfl
    · cases raise
      · cases h
      · rw [if_pos rfl, List.mem_singleton] at h
        subst h
        exact ⟨rfl, fun h => by cases h⟩

/-! ## What a run leaves in memory -/

theorem store_nil (mem : Nat → Nat) (dest : Nat) : store mem dest [] = mem := by
  funext i
  unfold store
  rw [if_neg]
  intro h
  rw [List.length_nil] at h
  omega

theorem delivered_append (es1 es2 : List Event) :
    delivered (es1 ++ es2) = delivered es1 ++ delivered es2 := by
  induction es1 with
  | nil => rfl
  | cons e es ih => rw [List.cons_append, delivered, delivered, ih, List.append_assoc]

theorem delivered_allowThreads (raise : Bool) (call : Event) :
    delivered (allowThreads raise call) = call.delivered := by
  cases raise <;> simp [allowThreads, delivered, Event.delivered]

theorem fillExact_length (ready : List Nat) (len : Nat) : (fillExact ready len).length = len := by
  simp [fillExact]

/-- One iteration that delivered `got` at `dest`, followed by a run on the rest. -/
theorem mem_step (ok : Int) (w w1 : World) (dest dest1 : Nat) (size size1 : Int)
    (got : List Nat) (es : List Event) (o : Out)
    (hlen : (got.length : Int) ≤ size) (hd : dest1 = dest + got.length)
    (hs : size1 = size - got.length) (hmem : w1.mem = store w.mem dest got)
    (hes : delivered es = got)
    (ih : Framed w1 dest1 size1 o ∧ (o.ret = some ok → Filled dest1 size1 o)) :
    Framed w dest size (emit es o) ∧ ((emit es o).ret = some ok → Filled dest size (emit es o)) := by
  subst hd hs
  obtain ⟨hframe, hfill⟩ := ih
  have hin : ∀ i, i < dest + got.length → (emit es o).w.mem i = store w.mem dest got i := by
    intro i hi
    rw [emit_w, hframe i (Or.inl hi), hmem]
  refine ⟨?_, ?_⟩
  · intro i hi
    rw [emit_w, hframe i (by omega), hmem]
    rcases hi with hi | hi
    · exact store_apply_lt _ _ _ _ hi
    · exact store_apply_ge _ _ _ _ (by omega)
  · intro hret
    obtain ⟨h1, h2⟩ := hfill hret
    rw [Filled, emit_events, delivered_append, hes]
    refine ⟨?_, ?_⟩
    · rw [List.length_append, h1]
      omega
    · intro i hi
      by_cases hig : i < got.length
      · rw [hin (dest + i) (by omega), store_apply_mid _ _ _ _ (by omega) (by omega),
          List.getD_append _ _ _ _ hig]
        congr 1
        omega
      · rw [List.getD_append_right _ _ _ _ (by omega), ← h2 (i - got.length) (by omega), emit_w]
        congr 1
        omega

/-- A way out of a loop that wrote nothing and did not succeed. -/
theorem mem_stop (ok : Int) (w : World) (dest : Nat) (size : Int) (o : Out)
    (hmem : o.w.mem = w.mem) (hret : o.ret ≠ some ok) :
    Framed w dest size o ∧ (o.ret = some ok → Filled dest size o) :=
  ⟨fun i _ => by rw [hmem], fun h => absurd h hret⟩

theorem py_getrandom_loop_mem (sun blocking raise : Bool) (w : World) (dest : Nat)
    (size : Int) (script : List Resp) :
    Framed w dest size (py_getrandom_loop sun blocking raise w dest size script) ∧
    ((py_getrandom_loop sun blocking raise w dest size script).ret = some 1 →
      Filled dest size (py_getrandom_loop sun blocking raise w dest size script)) := by
  apply py_getrandom_loop_run sun blocking raise
    (fun w dest size o => Framed w dest size o ∧ (o.ret = some 1 → Filled dest size o))
  · intro w dest size script hs
    refine ⟨fun i _ => rfl, fun _ => ⟨?_, ?_⟩⟩
    · show 0 = size.toNat
      omega
    · intro i hi
      omega
  · intro w dest size script _
    exact mem_stop 1 w dest size _ rfl (by simp [stuck])
  · intro w dest size ready o hs ih
    refine mem_step 1 w _ dest _ size _ (ready.take (getrandom_chunk sun size).toNat) _ o
      ?_ rfl rfl rfl ?_ ih
    · have := List.length_take_le (getrandom_chunk sun size).toNat ready
      cases sun
      · rw [getrandom_chunk, if_neg (by decide), LONG_MAX] at this ⊢
        omega
      · rw [getrandom_chunk, if_pos rfl] at this ⊢
        omega
    · rw [delivered_allowThreads]
      rfl
  · intro w dest size e rest _ _
    exact mem_stop 1 w dest size _ rfl (by simp)
  · intro w dest size rest _ _ _
    exact mem_stop 1 w dest size _ rfl (by simp)
  · intro w dest size rest _ _
    exact mem_stop 1 w dest size _ rfl (by simp)
  · intro w dest size o hs _ ih
    refine mem_step 1 w _ dest dest size size [] _ o (by simpa using hs.le) rfl (by simp)
      (store_nil _ _).symm ?_ ih
    rw [delivered_append, delivered_allowThreads]
    rfl
  · intro w dest size rest _ _
    exact mem_stop 1 w dest size _ rfl (by simp [emit, stuck])
  · intro w dest size o hs _ ih
    refine mem_step 1 w _ dest dest size size [] _ o (by simpa using hs.le) rfl (by simp)
      (store_nil _ _).symm ?_ ih
    rw [delivered_allowThreads]
    rfl
  · intro w dest size e rest _ _ _ _
    exact mem_stop 1 w dest size _ rfl (by simp)

theorem py_getentropy_loop_events (raise : Bool) (w : World) (dest : Nat)
    (size : Int) (script : List Resp) :
    ∀ e ∈ (py_getentropy_loop raise w dest size script).events,
      e.isDevice = false ∧ (raise = false → e.needsRaise = false) := by
  apply py_getentropy_loop_run raise
    (fun _ _ _ o => ∀ e ∈ o.events, e.isDevice = false ∧ (raise = false → e.needsRaise = false))
  · intro w dest size script _ e he
    cases he
  · intro w dest size script _ e he
    cases he
  · intro w dest size ready o _ ih e he
    rcases List.mem_append.mp he with h | h
    · exact sysEvent_allowThreads _ _ e h rfl rfl
    · exact ih e h
  · intro w dest size e0 rest _ _ e he
    exact sysEvent_allowThreads _ _ e he rfl rfl
  · intro w dest size rest _ hr e he
    rcases List.mem_append.mp he with h | h
    · exact sysEvent_allowThreads _ _ e h rfl rfl
    · rw [List.mem_singleton] at h
      subst h
      exact ⟨rfl, fun h => by rw [hr] at h; cases h⟩
  · intro w dest size o _ hr ih e he
    rcases List.mem_append.mp he with h | h
    · rcases List.mem_append.mp h with h | h
      · exact sysEvent_allowThreads _ _ e h rfl rfl
      · rw [List.mem_singleton] at h
        subst h
        exact ⟨rfl, fun h => by rw [hr] at h; cases h⟩
    · exact ih e h
  · intro w dest size rest _ _ e he
    rcases List.mem_append.mp he with h | h
    · exact sysEvent_allowThreads _ _ e h rfl rfl
    · cases h
  · intro w dest size o _ _ ih e he
    rcases List.mem_append.mp he with h | h
    · exact sysEvent_allowThreads _ _ e h rfl rfl
    · exact ih e h
  · intro w dest size e0 rest _ _ _ e he
    rcases List.mem_append.mp he with h | h
    · exact sysEvent_allowThreads _ _ e h rfl rfl
    · cases raise
      · cases h
      · rw [if_pos rfl, List.mem_singleton] at h
        subst h
        exact ⟨rfl, fun h => by cases h⟩

theorem py_getentropy_loop_mem (raise : Bool) (w : World) (dest : Nat)
    (size : Int) (script : List Resp) :
    Framed w dest size (py_getentropy_loop raise w dest size script) ∧
    ((py_getentropy_loop raise w dest size script).ret = some 1 →
      Filled dest size (py_getentropy_loop raise w dest size script)) := by
  apply py_getentropy_loop_run raise
    (fun w dest size o => Framed w dest size o ∧ (o.ret = some 1 → Filled dest size o))
  · intro w dest size script hs
    refine ⟨fun i _ => rfl, fun _ => ⟨?_, ?_⟩⟩
    · show 0 = size.toNat
      omega
    · intro i hi
      omega
  · intro w dest size script _
    exact mem_stop 1 w dest size _ rfl (by simp [stuck])
  · intro w dest size ready o hs ih
    have hlen := fillExact_length ready (min size 256).toNat
    refine mem_step 1 w _ dest _ size _ (fillExact ready (min size 256).toNat) _ o
      ?_ ?_ ?_ rfl ?_ ih
    · rw [hlen]
      omega
    · rw [hlen]
    · rw [hlen]
      omega
    · rw [delivered_allowThreads]
      rfl
  · intro w dest size e rest _ _
    exact mem_stop 1 w dest size _ rfl (by simp)
  · intro w dest size rest _ _
    exact mem_stop 1 w dest size _ rfl (by simp)
  · intro w dest size o hs _ ih
    refine mem_step 1 w _ dest dest size size [] _ o (by simpa using hs.le) rfl (by simp)
      (store_nil _ _).symm ?_ ih
    rw [delivered_append, delivered_allowThreads]
    rfl
  · intro w dest size rest _ _
    exact mem_stop 1 w dest size _ rfl (by simp [emit, stuck])
  · intro w dest size o hs _ ih
    refine mem_step 1 w _ dest dest size size [] _ o (by simpa using hs.le) rfl (by simp)
      (store_nil _ _).symm ?_ ih
    rw [delivered_allowThreads]
    rfl
  · intro w dest size e rest _ _ _
    exact mem_stop 1 w dest size _ rfl (by simp)

theorem size_t_le (size : Int) (h : 0 < size) : (size_t size : Int) ≤ size := by
  unfold size_t
  omega

theorem take_size_t_le (size : Int) (h : 0 < size) (ready : List Nat) :
    ((ready.take (size_t size)).length : Int) ≤ size := by
  have h1 := List.length_take_le (size_t size) ready
  have h2 := size_t_le size h
  omega

/-- The events of the `_Py_read` loop are `_Py_read` calls on `fd`, and at most one
`PyErr_Format(PyExc_RuntimeError, ...)`. -/
theorem dev_urandom_read_events (fd : Int) (w : World) (dest : Nat) (size : Int)
    (script : List Resp) :
    ∀ e ∈ (dev_urandom_read fd w dest size script).events,
      (∃ d n r, e = Event.Py_read fd d n r) ∨ (∃ s, e = Event.PyErr_Format_RuntimeError s) := by
  apply dev_urandom_read_run fd
    (fun _ _ _ o => ∀ e ∈ o.events,
      (∃ d n r, e = Event.Py_read fd d n r) ∨ (∃ s, e = Event.PyErr_Format_RuntimeError s))
  · intro w dest size script e he
    cases he
  · intro w dest size ready rest _ e he
    simp only [List.mem_cons, List.mem_singleton, List.not_mem_nil, or_false] at he
    rcases he with he | he
    · exact Or.inl ⟨_, _, _, he⟩
    · exact Or.inr ⟨_, he⟩
  · intro w dest size ready o _ _ ih e he
    rcases List.mem_append.mp he with h | h
    · rw [List.mem_singleton] at h
      exact Or.inl ⟨_, _, _, h⟩
    · exact ih e h
  · intro w dest size ready rest _ _ e he
    rw [List.mem_singleton] at he
    exact Or.inl ⟨_, _, _, he⟩
  · intro w dest size e0 rest e he
    rw [List.mem_singleton] at he
    exact Or.inl ⟨_, _, _, he⟩

/-- The `_Py_read` loop changes nothing of the world but the buffer and `errno`. -/
theorem dev_urandom_read_world (fd : Int) (w : World) (dest : Nat) (size : Int)
    (script : List Resp) :
    (dev_urandom_read fd w dest size script).w.urandom_cache = w.urandom_cache ∧
    (dev_urandom_read fd w dest size script).w.getrandom_works = w.getrandom_works ∧
    (dev_urandom_read fd w dest size script).w.getentropy_works = w.getentropy_works := by
  apply dev_urandom_read_run fd
    (fun w _ _ o => o.w.urandom_cache = w.urandom_cache ∧
      o.w.getrandom_works = w.getrandom_works ∧ o.w.getentropy_works = w.getentropy_works)
  · intro w dest size script
    exact ⟨rfl, rfl, rfl⟩
  · intro w dest size ready rest _
    exact ⟨rfl, rfl, rfl⟩
  · intro w dest size ready o _ _ ih
    exact ih
  · intro w dest size ready rest _ _
    exact ⟨rfl, rfl, rfl⟩
  · intro w dest size e0 rest
    exact ⟨rfl, rfl, rfl⟩

theorem dev_urandom_read_mem (fd : Int) (w : World) (dest : Nat) (size : Int)
    (script : List Resp) (hs : 0 < size) :
    Framed w dest size (dev_urandom_read fd w dest size script) ∧
    ((dev_urandom_read fd w dest size script).ret = some 0 →
      Filled dest size (dev_urandom_read fd w dest size script)) := by
  revert hs
  apply dev_urandom_read_run fd
    (fun w dest size o => 0 < size →
      Framed w dest size o ∧ (o.ret = some 0 → Filled dest size o))
  · intro w dest size script _
    exact mem_stop 0 w dest size _ rfl (by simp [stuck])
  · intro w dest size ready rest _ _
    exact mem_stop 0 w dest size _ rfl (by simp)
  · intro w dest size ready o _ hmore ih hs
    exact mem_step 0 w _ dest _ size _ (ready.take (size_t size)) _ o
      (take_size_t_le size hs ready) rfl rfl rfl (by simp [delivered, Event.delivered])
      (ih hmore)
  · intro w dest size ready rest _ hlast hs
    have hle := take_size_t_le size hs ready
    have h := mem_step 0 w { w with mem := store w.mem dest (ready.take (size_t size)) }
      dest _ size _ (ready.take (size_t size))
      [Event.Py_read fd dest (size_t size) (Resp.data (ready.take (size_t size)))]
      { ret := some 0, w := { w with mem := store w.mem dest (ready.take (size_t size)) },
        events := [], rest := rest }
      hle rfl rfl rfl (by simp [delivered, Event.delivered])
      ⟨fun i _ => rfl, fun _ => ⟨by show 0 = _; omega, fun i hi => by omega⟩⟩
    exact h
  · intro w dest size e rest _
    exact mem_stop 0 w dest size _ rfl (by simp)

theorem dev_urandom_read_noraise_events (fd : Int) (w : World) (dest : Nat) (size : Int)
    (script : List Resp) :
    ∀ e ∈ (dev_urandom_read_noraise fd w dest size script).events,
      (∃ d n r, e = Event.read fd d n r) ∨ e = Event.close fd := by
  apply dev_urandom_read_noraise_run fd
    (fun _ _ _ o => ∀ e ∈ o.events, (∃ d n r, e = Event.read fd d n r) ∨ e = Event.close fd)
  · intro w dest size script _ e he
    rw [List.mem_singleton] at he
    exact Or.inr he
  · intro w dest size script _ e he
    cases he
  · intro w dest size ready rest _ _ e he
    simp only [List.mem_cons, List.mem_singleton, List.not_mem_nil, or_false] at he
    rcases he with he | he
    · exact Or.inl ⟨_, _, _, he⟩
    · exact Or.inr he
  · intro w dest size ready o _ _ ih e he
    rcases List.mem_append.mp he with h | h
    · rw [List.mem_singleton] at h
      exact Or.inl ⟨_, _, _, h⟩
    · exact ih e h
  · intro w dest size o _ ih e he
    rcases List.mem_append.mp he with h | h
    · rw [List.mem_singleton] at h
      exact Or.inl ⟨_, _, _, h⟩
    · exact ih e h
  · intro w dest size e0 rest _ _ e he
    simp only [List.mem_cons, List.mem_singleton, List.not_mem_nil, or_false] at he
    rcases he with he | he
    · exact Or.inl ⟨_, _, _, he⟩
    · exact Or.inr he

theorem dev_urandom_read_noraise_mem (fd : Int) (w : World) (dest : Nat) (size : Int)
    (script : List Resp) :
    Framed w dest size (dev_urandom_read_noraise fd w dest size script) ∧
    ((dev_urandom_read_noraise fd w dest size script).ret = some 0 →
      Filled dest size (dev_urandom_read_noraise fd w dest size script)) := by
  apply dev_urandom_read_noraise_run fd
    (fun w dest size o => Framed w dest size o ∧ (o.ret = some 0 → Filled dest size o))
  · intro w dest size script hs
    refine ⟨fun i _ => rfl, fun _ => ⟨?_, ?_⟩⟩
    · show 0 = size.toNat
      omega
    · intro i hi
      omega
  · intro w dest size script _
    exact mem_stop 0 w dest size _ rfl (by simp [stuck])
  · intro w dest size ready rest _ _
    exact mem_stop 0 w dest size _ rfl (by simp)
  · intro w dest size ready o hs _ ih
    exact mem_step 0 w _ dest _ size _ (ready.take (size_t size)) _ o
      (take_size_t_le size hs ready) rfl rfl rfl (by simp [delivered, Event.delivered]) ih
  · intro w dest size o hs ih
    exact mem_step 0 w _ dest dest size size [] _ o (by simpa using hs.le) rfl (by simp)
      (store_nil _ _).symm (by simp [delivered, Event.delivered]) ih
  · intro w dest size e rest _ _
    exact mem_stop 0 w dest size _ rfl (by simp)

/-! ## Return values -/

theorem py_getrandom_loop_ret (sun blocking raise : Bool) (w : World) (dest : Nat)
    (size : Int) (script : List Resp) :
    (py_getrandom_loop sun blocking raise w dest size script).ret = none ∨
    (py_getrandom_loop sun blocking raise w dest size script).ret = some 1 ∨
    (py_getrandom_loop sun blocking raise w dest size script).ret = some 0 ∨
    (py_getrandom_loop sun blocking raise w dest size script).ret = some (-1) := by
  apply py_getrandom_loop_run sun blocking raise
    (fun _ _ _ o => o.ret = none ∨ o.ret = some 1 ∨ o.ret = some 0 ∨ o.ret = some (-1))
  all_goals intros
  all_goals first
    | assumption
    | simp [stuck, emit_ret]

theorem py_getentropy_loop_ret (raise : Bool) (w : World) (dest : Nat)
    (size : Int) (script : List Resp) :
    (py_getentropy_loop raise w dest size script).ret = none ∨
    (py_getentropy_loop raise w dest size script).ret = some 1 ∨
    (py_getentropy_loop raise w dest size script).ret = some 0 ∨
    (py_getentropy_loop raise w dest size script).ret = some (-1) := by
  apply py_getentropy_loop_run raise
    (fun _ _ _ o => o.ret = none ∨ o.ret = some 1 ∨ o.ret = some 0 ∨ o.ret = some (-1))
  all_goals intros
  all_goals first
    | assumption
    | simp [stuck, emit_ret]

theorem dev_urandom_read_ret (fd : Int) (w : World) (dest : Nat) (size : Int)
    (script : List Resp) :
    (dev_urandom_read fd w dest size script).ret = none ∨
    (dev_urandom_read fd w dest size script).ret = some 0 ∨
    (dev_urandom_read fd w dest size script).ret = some (-1) := by
  apply dev_urandom_read_run fd
    (fun _ _ _ o => o.ret = none ∨ o.ret = some 0 ∨ o.ret = some (-1))
  all_goals intros
  all_goals first
    | assumption
    | simp [stuck, emit_ret]

theorem dev_urandom_read_noraise_ret (fd : Int) (w : World) (dest : Nat) (size : Int)
    (script : List Resp) :
    (dev_urandom_read_noraise fd w dest size script).ret = none ∨
    (dev_urandom_read_noraise fd w dest size script).ret = some 0 ∨
    (dev_urandom_read_noraise fd w dest size script).ret = some (-1) := by
  apply dev_urandom_read_noraise_run fd
    (fun _ _ _ o => o.ret = none ∨ o.ret = some 0 ∨ o.ret = some (-1))
  all_goals intros
  all_goals first
    | assumption
    | simp [stuck, emit_ret]

/-! ## The latches -/

theorem any_latch_allowThreads (raise : Bool) (call : Event) :
    (allowThreads raise call).any Event.isLatchFailure = call.isLatchFailure := by
  cases raise <;> simp [allowThreads, Event.isLatchFailure]

/-- The run of the `getrandom` loop clears `getrandom_works` exactly when one of its
events is a failure with `ENOSYS` or `EPERM`, returns `0` in that case, and leaves the
other static variables alone. -/
theorem py_getrandom_loop_latch (sun blocking raise : Bool) (w : World) (dest : Nat)
    (size : Int) (script : List Resp) :
    (py_getrandom_loop sun blocking raise w dest size script).w.getrandom_works =
      (w.getrandom_works &&
        !(py_getrandom_loop sun blocking raise w dest size script).events.any
          Event.isLatchFailure) ∧
    ((py_getrandom_loop sun blocking raise w dest size script).events.any
        Event.isLatchFailure = true →
      (py_getrandom_loop sun blocking raise w dest size script).ret = some 0) ∧
    (py_getrandom_loop sun blocking raise w dest size script).w.getentropy_works =
      w.getentropy_works ∧
    (py_getrandom_loop sun blocking raise w dest size script).w.urandom_cache =
      w.urandom_cache ∧
    (py_getrandom_loop sun blocking raise w dest size script).w._Py_HashSecret_Initialized =
      w._Py_HashSecret_Initialized := by
  apply py_getrandom_loop_run sun blocking raise
    (fun w _ _ o =>
      o.w.getrandom_works = (w.getrandom_works && !o.events.any Event.isLatchFailure) ∧
      (o.events.any Event.isLatchFailure = true → o.ret = some 0) ∧
      o.w.getentropy_works = w.getentropy_works ∧
      o.w.urandom_cache = w.urandom_cache ∧
      o.w._Py_HashSecret_Initialized = w._Py_HashSecret_Initialized)
  · intro w dest size script _
    simp
  · intro w dest size script _
    simp [stuck]
  · intro w dest size ready o _ ih
    simpa [emit, List.any_append, any_latch_allowThreads, Event.isLatchFailure] using ih
  · intro w dest size e rest _ he
    rcases he with he | he <;> subst he <;>
      simp [any_latch_allowThreads, Event.isLatchFailure]
  · intro w dest size rest _ _ _
    simp [any_latch_allowThreads, Event.isLatchFailure]
  · intro w dest size rest _ _
    simp [List.any_append, any_latch_allowThreads, Event.isLatchFailure]
  · intro w dest size o _ _ ih
    simpa [emit, List.any_append, any_latch_allowThreads, Event.isLatchFailure] using ih
  · intro w dest size rest _ _
    simp [emit, stuck, List.any_append, any_latch_allowThreads, Event.isLatchFailure]
  · intro w dest size o _ _ ih
    simpa [emit, List.any_append, any_latch_allowThreads, Event.isLatchFailure] using ih
  · intro w dest size e rest _ h1 _ _
    rw [not_or] at h1
    cases raise <;>
      simp [List.any_append, any_latch_allowThreads, Event.isLatchFailure, h1.1, h1.2]

/-- The run of the `getentropy` loop clears `getentropy_works` exactly when one of its
events is a failure with `ENOSYS` or `EPERM`, returns `0` in that case, and leaves the
other static variables alone. -/
theorem py_getentropy_loop_latch (raise : Bool) (w : World) (dest : Nat)
    (size : Int) (script : List Resp) :
    (py_getentropy_loop raise w dest size script).w.getentropy_works =
      (w.getentropy_works &&
        !(py_getentropy_loop raise w dest size script).events.any Event.isLatchFailure) ∧
    ((py_getentropy_loop raise w dest size script).events.any Event.isLatchFailure = true →
      (py_getentropy_loop raise w dest size script).ret = some 0) ∧
    (py_getentropy_loop raise w dest size script).w.getrandom_works = w.getrandom_works ∧
    (py_getentropy_loop raise w dest size script).w.urandom_cache = w.urandom_cache ∧
    (py_getentropy_loop raise w dest size script).w._Py_HashSecret_Initialized =
      w._Py_HashSecret_Initialized := by
  apply py_getentropy_loop_run raise
    (fun w _ _ o =>
      o.w.getentropy_works = (w.getentropy_works && !o.events.any Event.isLatchFailure) ∧
      (o.events.any Event.isLatchFailure = true → o.ret = some 0) ∧
      o.w.getrandom_works = w.getrandom_works ∧
      o.w.urandom_cache = w.urandom_cache ∧
      o.w._Py_HashSecret_Initialized = w._Py_HashSecret_Initialized)
  · intro w dest size script _
    simp
  · intro w dest size script _
    simp [stuck]
  · intro w dest size ready o _ ih
    simpa [emit, List.any_append, any_latch_allowThreads, Event.isLatchFailure] using ih
  · intro w dest size e rest _ he
    rcases he with he | he <;> subst he <;>
      simp [any_latch_allowThreads, Event.isLatchFailure]
  · intro w dest size rest _ _
    simp [List.any_append, any_latch_allowThreads, Event.isLatchFailure]
  · intro w dest size o _ _ ih
    simpa [emit, List.any_append, any_latch_allowThreads, Event.isLatchFailure] using ih
  · intro w dest size rest _ _
    simp [emit, stuck, List.any_append, any_latch_allowThreads, Event.isLatchFailure]
  · intro w dest size o _ _ ih
    simpa [emit, List.any_append, any_latch_allowThreads, Event.isLatchFailure] using ih
  · intro w dest size e rest _ h1 _
    rw [not_or] at h1
    cases raise <;>
      simp [List.any_append, any_latch_allowThreads, Event.isLatchFailure, h1.1, h1.2]

/-! ## Interrupted calls -/

theorem retried_cons (e : Event) (es : List Event) (returned : Bool)
    (h : retriedDirectly es returned = true)
    (hnext : e.interrupted = true →
      (∃ e2, es.head? = some e2 ∧ e.sameCall e2 = true) ∨ (es = [] ∧ returned = false)) :
    retriedDirectly (e :: es) returned = true := by
  cases es with
  | nil =>
    cases hi : e.interrupted
    · simp [retriedDirectly, hi]
    · rcases hnext hi with ⟨e2, h2, _⟩ | ⟨_, hr⟩
      · cases h2
      · simp [retriedDirectly, hr]
  | cons e2 es =>
    cases hi : e.interrupted
    · simp [retriedDirectly, hi, h]
    · rcases hnext hi with ⟨e3, h3, hs⟩ | ⟨hnil, _⟩
      · simp only [List.head?_cons, Option.some.injEq] at h3
        subst h3
        simp [retriedDirectly, hs, h]
      · cases hnil

theorem retried_append (es1 es2 : List Event) (returned : Bool)
    (h1 : retriedDirectly es1 true = true) (h2 : retriedDirectly es2 returned = true) :
    retriedDirectly (es1 ++ es2) returned = true := by
  induction es1 with
  | nil => exact h2
  | cons e es ih =>
    cases es with
    | nil =>
      have hi : e.interrupted = false := by
        simpa [retriedDirectly] using h1
      exact retried_cons e es2 returned h2 (fun h => by rw [hi] at h; cases h)
    | cons e2 es =>
      simp only [retriedDirectly, Bool.and_eq_true] at h1
      have := ih h1.2
      simp only [List.cons_append, retriedDirectly, Bool.and_eq_true]
      exact ⟨h1.1, this⟩

theorem not_interrupted_getrandom (d : Nat) (n : Int) (f : Nat) (e : Errno)
    (h : e ≠ Errno.EINTR) : (Event.getrandom d n f (Resp.fail e)).interrupted = false := by
  cases e <;> first | rfl | exact absurd rfl h

theorem not_interrupted_getentropy (d : Nat) (n : Int) (e : Errno)
    (h : e ≠ Errno.EINTR) : (Event.getentropy d n (Resp.fail e)).interrupted = false := by
  cases e <;> first | rfl | exact absurd rfl h

theorem not_interrupted_read (fd : Int) (d n : Nat) (e : Errno)
    (h : e ≠ Errno.EINTR) : (Event.read fd d n (Resp.fail e)).interrupted = false := by
  cases e <;> first | rfl | exact absurd rfl h

/-- Without `raise`, a `getrandom` that fails with `EINTR` is followed at once by the same
`getrandom` call; the first event of the loop is the `getrandom` call for its `dest` and
`size`. -/
theorem py_getrandom_loop_retry (sun blocking : Bool) (w : World) (dest : Nat)
    (size : Int) (script : List Resp) :
    retriedDirectly (py_getrandom_loop sun blocking false w dest size script).events
      (py_getrandom_loop sun blocking false w dest size script).ret.isSome = true ∧
    (∀ e, (py_getrandom_loop sun blocking false w dest size script).events.head? = some e →
      ∃ r, e = Event.getrandom dest (getrandom_chunk sun size) (getrandom_flags blocking) r) ∧
    ((py_getrandom_loop sun blocking false w dest size script).events = [] → 0 < size →
      (py_getrandom_loop sun blocking false w dest size script).ret = none) := by
  apply py_getrandom_loop_run sun blocking false
    (fun _ dest size o =>
      retriedDirectly o.events o.ret.isSome = true ∧
      (∀ e, o.events.head? = some e →
        ∃ r, e = Event.getrandom dest (getrandom_chunk sun size) (getrandom_flags blocking) r) ∧
      (o.events = [] → 0 < size → o.ret = none))
  · intro w dest size script hs
    exact ⟨rfl, fun e he => (by cases he), fun _ h => absurd h hs⟩
  · intro w dest size script _
    exact ⟨rfl, fun e he => (by cases he), fun _ _ => rfl⟩
  · intro w dest size ready o _ ih
    refine ⟨?_, ?_, ?_⟩
    · exact retried_cons _ _ _ ih.1 (fun h => by cases h)
    · intro e he
      simp only [emit_events, allowThreads, Bool.false_eq_true, if_false, List.singleton_append,
        List.head?_cons, Option.some.injEq] at he
      exact ⟨_, he.symm⟩
    · intro h
      simp [emit_events, allowThreads] at h
  · intro w dest size e rest _ he
    refine ⟨?_, ?_, ?_⟩
    · have : e ≠ Errno.EINTR := by rcases he with h | h <;> subst h <;> decide
      simp [allowThreads, retriedDirectly, not_interrupted_getrandom _ _ _ _ this]
    · intro e1 he1
      simp only [allowThreads, Bool.false_eq_true, if_false, List.head?_cons,
        Option.some.injEq] at he1
      exact ⟨_, he1.symm⟩
    · intro h
      simp [allowThreads] at h
  · intro w dest size rest _ _ _
    refine ⟨?_, ?_, ?_⟩
    · simp [allowThreads, retriedDirectly, Event.interrupted]
    · intro e1 he1
      simp only [allowThreads, Bool.false_eq_true, if_false, List.head?_cons,
        Option.some.injEq] at he1
      exact ⟨_, he1.symm⟩
    · intro h
      simp [allowThreads] at h
  · intro w dest size rest _ hr
    cases hr
  · intro w dest size o _ hr
    cases hr
  · intro w dest size rest _ hr
    cases hr
  · intro w dest size o hs _ ih
    refine ⟨?_, ?_, ?_⟩
    · refine retried_cons _ _ _ ih.1 (fun _ => ?_)
      cases hev : o.events with
      | nil =>
        right
        exact ⟨rfl, by rw [emit_ret, ih.2.2 hev hs]; rfl⟩
      | cons e2 es =>
        left
        obtain ⟨r, hr⟩ := ih.2.1 e2 (by rw [hev]; rfl)
        refine ⟨e2, rfl, ?_⟩
        subst hr
        simp [Event.sameCall]
    · intro e he
      simp only [emit_events, allowThreads, Bool.false_eq_true, if_false, List.singleton_append,
        List.head?_cons, Option.some.injEq] at he
      exact ⟨_, he.symm⟩
    · intro h
      simp [emit_events, allowThreads] at h
  · intro w dest size e rest _ _ _ h3
    refine ⟨?_, ?_, ?_⟩
    · simp [allowThreads, retriedDirectly, not_interrupted_getrandom _ _ _ _ h3]
    · intro e1 he1
      simp only [allowThreads, Bool.false_eq_true, if_false, List.append_nil, List.head?_cons,
        Option.some.injEq] at he1
      exact ⟨_, he1.symm⟩
    · intro h
      simp [allowThreads] at h

/-- Without `raise`, a `getentropy` that fails with `EINTR` is followed at once by the same
`getentropy` call. -/
theorem py_getentropy_loop_retry (w : World) (dest : Nat) (size : Int) (script : List Resp) :
    retriedDirectly (py_getentropy_loop false w dest size script).events
      (py_getentropy_loop false w dest size script).ret.isSome = true ∧
    (∀ e, (py_getentropy_loop false w dest size script).events.head? = some e →
      ∃ r, e = Event.getentropy dest (min size 256) r) ∧
    ((py_getentropy_loop false w dest size script).events = [] → 0 < size →
      (py_getentropy_loop false w dest size script).ret = none) := by
  apply py_getentropy_loop_run false
    (fun _ dest size o =>
      retriedDirectly o.events o.ret.isSome = true ∧
      (∀ e, o.events.head? = some e → ∃ r, e = Event.getentropy dest (min size 256) r) ∧
      (o.events = [] → 0 < size → o.ret = none))
  · intro w dest size script hs
    exact ⟨rfl, fun e he => (by cases he), fun _ h => absurd h hs⟩
  · intro w dest size script _
    exact ⟨rfl, fun e he => (by cases he), fun _ _ => rfl⟩
  · intro w dest size ready o _ ih
    refine ⟨?_, ?_, ?_⟩
    · exact retried_cons _ _ _ ih.1 (fun h => by cases h)
    · intro e he
      simp only [emit_events, allowThreads, Bool.false_eq_true, if_false, List.singleton_append,
        List.head?_cons, Option.some.injEq] at he
      exact ⟨_, he.symm⟩
    · intro h
      simp [emit_events, allowThreads] at h
  · intro w dest size e rest _ he
    refine ⟨?_, ?_, ?_⟩
    · have : e ≠ Errno.EINTR := by rcases he with h | h <;> subst h <;> decide
      simp [allowThreads, retriedDirectly, not_interrupted_getentropy _ _ _ this]
    · intro e1 he1
      simp only [allowThreads, Bool.false_eq_true, if_false, List.head?_cons,
        Option.some.injEq] at he1
      exact ⟨_, he1.symm⟩
    · intro h
      simp [allowThreads] at h
  · intro w dest size rest _ hr
    cases hr
  · intro w dest size o _ hr
    cases hr
  · intro w dest size rest _ hr
    cases hr
  · intro w dest size o hs _ ih
    refine ⟨?_, ?_, ?_⟩
    · refine retried_cons _ _ _ ih.1 (fun _ => ?_)
      cases hev : o.events with
      | nil =>
        right
        exact ⟨rfl, by rw [emit_ret, ih.2.2 hev hs]; rfl⟩
      | cons e2 es =>
        left
        obtain ⟨r, hr⟩ := ih.2.1 e2 (by rw [hev]; rfl)
        refine ⟨e2, rfl, ?_⟩
        subst hr
        simp [Event.sameCall]
    · intro e he
      simp only [emit_events, allowThreads, Bool.false_eq_true, if_false, List.singleton_append,
        List.head?_cons, Option.some.injEq] at he
      exact ⟨_, he.symm⟩
    · intro h
      simp [emit_events, allowThreads] at h
  · intro w dest size e rest _ _ h3
    refine ⟨?_, ?_, ?_⟩
    · simp [allowThreads, retriedDirectly, not_interrupted_getentropy _ _ _ h3]
    · intro e1 he1
      simp only [allowThreads, Bool.false_eq_true, if_false, List.append_nil, List.head?_cons,
        Option.some.injEq] at he1
      exact ⟨_, he1.symm⟩
    · intro h
      simp [allowThreads] at h

/-- A `read` of the `raise`-less branch of `dev_urandom` that fails with `EINTR` is followed
at once by the same `read`. -/
theorem dev_urandom_read_noraise_retry (fd : Int) (w : World) (dest : Nat) (size : Int)
    (script : List Resp) :
    retriedDirectly (dev_urandom_read_noraise fd w dest size script).events
      (dev_urandom_read_noraise fd w dest size script).ret.isSome = true ∧
    (0 < size → ∀ e, (dev_urandom_read_noraise fd w dest size script).events.head? = some e →
      ∃ r, e = Event.read fd dest (size_t size) r) ∧
    ((dev_urandom_read_noraise fd w dest size script).events = [] →
      (dev_urandom_read_noraise fd w dest size script).ret = none) := by
  apply dev_urandom_read_noraise_run fd
    (fun _ dest size o =>
      retriedDirectly o.events o.ret.isSome = true ∧
      (0 < size → ∀ e, o.events.head? = some e → ∃ r, e = Event.read fd dest (size_t size) r) ∧
      (o.events = [] → o.ret = none))
  · intro w dest size script hs
    exact ⟨rfl, fun h => absurd h hs, fun h => (by cases h)⟩
  · intro w dest size script _
    exact ⟨rfl, fun _ e he => (by cases he), fun _ => rfl⟩
  · intro w dest size ready rest _ _
    refine ⟨rfl, ?_, fun h => (by cases h)⟩
    intro _ e he
    simp only [List.head?_cons, Option.some.injEq] at he
    exact ⟨_, he.symm⟩
  · intro w dest size ready o _ _ ih
    refine ⟨?_, ?_, ?_⟩
    · exact retried_cons _ _ _ ih.1 (fun h => by cases h)
    · intro _ e he
      simp only [emit_events, List.singleton_append, List.head?_cons, Option.some.injEq] at he
      exact ⟨_, he.symm⟩
    · intro h
      simp [emit_events] at h
  · intro w dest size o hs ih
    refine ⟨?_, ?_, ?_⟩
    · refine retried_cons _ _ _ ih.1 (fun _ => ?_)
      cases hev : o.events with
      | nil =>
        right
        exact ⟨rfl, by rw [emit_ret, ih.2.2 hev]; rfl⟩
      | cons e2 es =>
        left
        obtain ⟨r, hr⟩ := ih.2.1 hs e2 (by rw [hev]; rfl)
        refine ⟨e2, rfl, ?_⟩
        subst hr
        simp [Event.sameCall]
    · intro _ e he
      simp only [emit_events, List.singleton_append, List.head?_cons, Option.some.injEq] at he
      exact ⟨_, he.symm⟩
    · intro h
      simp [emit_events] at h
  · intro w dest size e rest _ h3
    refine ⟨?_, ?_, fun h => (by cases h)⟩
    · have hn := not_interrupted_read fd dest (size_t size) e h3
      simp [retriedDirectly, hn]
      rfl
    · intro _ e1 he1
      simp only [List.head?_cons, Option.some.injEq] at he1
      exact ⟨_, he1.symm⟩

/-! ## Runs of `dev_urandom` -/

theorem emit_emit (es1 es2 : List Event) (o : Out) :
    emit es1 (emit es2 o) = emit (es1 ++ es2) o := by
  simp [emit, List.append_assoc]

theorem emit_nil (o : Out) : emit [] o = o := rfl

theorem devStep_of_forall (raise : Bool) (es : List Event)
    (h : ∀ e ∈ es, e.isDevice = true ∧ e.delivered = [] ∧ e.interrupted = false ∧
      e.needsRaise = false) : ∀ e ∈ es, DevStep raise e :=
  fun e he => ⟨(h e he).1, (h e he).2.1, (h e he).2.2.1, fun _ => (h e he).2.2.2⟩

/-- A run of lines 322-367 is some steps followed by the `_Py_read` loop, or some steps
that end the call without a byte read. -/
theorem dev_urandom_open_shape (w1 : World) (size : Int) (script1 : List Resp) :
    ∃ pre : List Event, (∀ e ∈ pre, DevStep true e) ∧
      ((∃ fd w2 rest, w2.mem = w1.mem ∧ (pre = [] → 0 ≤ w1.urandom_cache.fd) ∧
          dev_urandom_open w1 size script1 = emit pre (dev_urandom_read fd w2 0 size rest)) ∨
       ((dev_urandom_open w1 size script1).events = pre ∧
          (dev_urandom_open w1 size script1).w.mem = w1.mem ∧
          ((dev_urandom_open w1 size script1).ret = none ∨
            ((dev_urandom_open w1 size script1).ret = some (-1) ∧ pre ≠ [])))) := by
  unfold dev_urandom_open
  by_cases hc : 0 ≤ w1.urandom_cache.fd
  · rw [if_pos hc]
    exact ⟨[], fun e he => (by cases he), Or.inl ⟨_, w1, script1, rfl, fun _ => hc, rfl⟩⟩
  · rw [if_neg hc]
    split
    · rename_i n script2
      simp only [if_neg hc]
      split
      · rename_i st_dev st_ino script3
        refine ⟨_, ?_, Or.inl ⟨_, _, script3, ?_, ?_, rfl⟩⟩
        · intro e he
          simp only [List.mem_cons, List.mem_singleton, List.not_mem_nil, or_false] at he
          rcases he with he | he <;> subst he <;> exact ⟨rfl, rfl, rfl, fun h => by cases h⟩
        · rfl
        · intro h
          cases h
      · rename_i e0 script3
        refine ⟨_, ?_, Or.inr ⟨rfl, rfl, Or.inr ⟨rfl, by simp⟩⟩⟩
        intro e he
        simp only [List.mem_cons, List.mem_singleton, List.not_mem_nil, or_false] at he
        rcases he with he | he | he <;> subst he <;> exact ⟨rfl, rfl, rfl, fun h => by cases h⟩
      · refine ⟨[Event.Py_open (Resp.fd n)], ?_, Or.inr ⟨rfl, rfl, Or.inl rfl⟩⟩
        intro e he
        rw [List.mem_singleton] at he
        subst he
        exact ⟨rfl, rfl, rfl, fun h => by cases h⟩
    · rename_i e0 script2
      refine ⟨_, ?_, Or.inr ⟨rfl, rfl, Or.inr ⟨rfl, by simp⟩⟩⟩
      intro e he
      rw [List.mem_cons] at he
      rcases he with he | he
      · subst he
        exact ⟨rfl, rfl, rfl, fun h => by cases h⟩
      · split at he
        · rw [List.mem_singleton] at he
          subst he
          exact ⟨rfl, rfl, rfl, fun h => by cases h⟩
        · cases he
    · exact ⟨[], fun e he => (by cases he), Or.inr ⟨rfl, rfl, Or.inl rfl⟩⟩

/-- The shape of a run of lines 322-367 after a step `call` that left the buffer alone. -/
theorem dev_urandom_after (w w1 : World) (size : Int) (script1 : List Resp) (call : Event)
    (hcall : DevStep true call) (hmem : w1.mem = w.mem) :
    ∃ pre : List Event, (∀ e ∈ pre, DevStep true e) ∧
      ((∃ fd w2 rest, pre ≠ [] ∧ w2.mem = w.mem ∧
          emit [call] (dev_urandom_open w1 size script1) =
            emit pre (dev_urandom_read fd w2 0 size rest)) ∨
       ((emit [call] (dev_urandom_open w1 size script1)).events = pre ∧
          (emit [call] (dev_urandom_open w1 size script1)).w.mem = w.mem ∧
          ((emit [call] (dev_urandom_open w1 size script1)).ret = none ∨
            ((emit [call] (dev_urandom_open w1 size script1)).ret = some (-1) ∧ pre ≠ [])))) := by
  obtain ⟨pre, hpre, h⟩ := dev_urandom_open_shape w1 size script1
  refine ⟨call :: pre, ?_, ?_⟩
  · intro e he
    rcases List.mem_cons.mp he with h1 | h1
    · subst h1
      exact hcall
    · exact hpre e h1
  · rcases h with ⟨fd, w2, rest, h2, -, h3⟩ | ⟨h1, h2, h3⟩
    · left
      refine ⟨fd, w2, rest, by simp, h2.trans hmem, ?_⟩
      rw [h3, emit_emit]
      rfl
    · right
      refine ⟨?_, ?_, ?_⟩
      · rw [emit_events, h1]
        rfl
      · rw [emit_w, h2, hmem]
      · rcases h3 with h3 | ⟨h3, _⟩
        · exact Or.inl (by rw [emit_ret, h3])
        · exact Or.inr ⟨by rw [emit_ret, h3], by simp⟩

/-- A run of `dev_urandom` is some steps followed by one of its read loops, or some steps
that end the call without a byte read. -/
theorem dev_urandom_shape (w : World) (size : Int) (raise : Bool) (script : List Resp) :
    ∃ pre : List Event, (∀ e ∈ pre, DevStep raise e) ∧
      ((∃ fd w1 rest, raise = true ∧ pre ≠ [] ∧ w1.mem = w.mem ∧
          dev_urandom w size raise script = emit pre (dev_urandom_read fd w1 0 size rest)) ∨
       (∃ fd rest, raise = false ∧ pre ≠ [] ∧
          dev_urandom w size raise script =
            emit pre (dev_urandom_read_noraise fd w 0 size rest)) ∨
       ((dev_urandom w size raise script).events = pre ∧
          (dev_urandom w size raise script).w.mem = w.mem ∧
          ((dev_urandom w size raise script).ret = none ∨
            ((dev_urandom w size raise script).ret = some (-1) ∧ pre ≠ [])))) := by
  cases raise
  · unfold dev_urandom
    rw [if_neg (by decide)]
    split
    · rename_i n rest
      refine ⟨[Event.Py_open_noraise (Resp.fd n)], ?_,
        Or.inr (Or.inl ⟨n, rest, by trivial, by simp, by trivial⟩)⟩
      intro e he
      rw [List.mem_singleton] at he
      subst he
      exact ⟨rfl, rfl, rfl, fun _ => rfl⟩
    · rename_i e0 rest
      refine ⟨[Event.Py_open_noraise (Resp.fail e0)], ?_,
        Or.inr (Or.inr ⟨by trivial, by trivial, Or.inr ⟨by trivial, by simp⟩⟩)⟩
      intro e he
      rw [List.mem_singleton] at he
      subst he
      exact ⟨rfl, rfl, rfl, fun _ => rfl⟩
    · exact ⟨[], fun e he => (by cases he),
        Or.inr (Or.inr ⟨by trivial, by trivial, Or.inl (by trivial)⟩)⟩
  · unfold dev_urandom
    rw [if_pos rfl]
    by_cases hc : 0 ≤ w.urandom_cache.fd
    · rw [if_pos hc]
      split
      · rename_i st_dev st_ino rest
        simp only []
        split
        · obtain ⟨pre, hpre, h⟩ := dev_urandom_after w
            { w with urandom_cache := { w.urandom_cache with fd := -1 } } size rest
            (Event.Py_fstat_noraise w.urandom_cache.fd (Resp.stat st_dev st_ino))
            ⟨rfl, rfl, rfl, fun h => by cases h⟩ rfl
          refine ⟨pre, hpre, ?_⟩
          rcases h with ⟨fd, w2, rest2, h1, h2, h3⟩ | h
          · exact Or.inl ⟨fd, w2, rest2, by trivial, h1, h2, h3⟩
          · exact Or.inr (Or.inr h)
        · obtain ⟨pre, hpre, h⟩ := dev_urandom_after w w size rest
            (Event.Py_fstat_noraise w.urandom_cache.fd (Resp.stat st_dev st_ino))
            ⟨rfl, rfl, rfl, fun h => by cases h⟩ rfl
          refine ⟨pre, hpre, ?_⟩
          rcases h with ⟨fd, w2, rest2, h1, h2, h3⟩ | h
          · exact Or.inl ⟨fd, w2, rest2, by trivial, h1, h2, h3⟩
          · exact Or.inr (Or.inr h)
      · rename_i e0 rest
        obtain ⟨pre, hpre, h⟩ := dev_urandom_after w
          { w with errno := e0, urandom_cache := { w.urandom_cache with fd := -1 } } size rest
          (Event.Py_fstat_noraise w.urandom_cache.fd (Resp.fail e0))
          ⟨rfl, rfl, rfl, fun h => by cases h⟩ rfl
        refine ⟨pre, hpre, ?_⟩
        rcases h with ⟨fd, w2, rest2, h1, h2, h3⟩ | h
        · exact Or.inl ⟨fd, w2, rest2, by trivial, h1, h2, h3⟩
        · exact Or.inr (Or.inr h)
      · exact ⟨[], fun e he => (by cases he),
          Or.inr (Or.inr ⟨by trivial, by trivial, Or.inl (by trivial)⟩)⟩
    · rw [if_neg hc]
      obtain ⟨pre, hpre, h⟩ := dev_urandom_open_shape w size script
      refine ⟨pre, hpre, ?_⟩
      rcases h with ⟨fd, w2, rest2, h2, hne, h3⟩ | h
      · exact Or.inl ⟨fd, w2, rest2, by trivial, fun hnil => hc (hne hnil), h2, h3⟩
      · exact Or.inr (Or.inr h)

theorem delivered_devStep (raise : Bool) (es : List Event) (h : ∀ e ∈ es, DevStep raise e) :
    delivered es = [] := by
  induction es with
  | nil => rfl
  | cons e es ih =>
    rw [delivered, (h e (List.mem_cons_self e es)).2.1,
      ih (fun e1 h1 => h e1 (List.mem_cons_of_mem e h1))]
    rfl

theorem retried_devStep (raise : Bool) (es : List Event) (returned : Bool)
    (h : ∀ e ∈ es, DevStep raise e) : retriedDirectly es returned = true := by
  induction es with
  | nil => rfl
  | cons e es ih =>
    refine retried_cons e es returned
      (ih (fun e1 h1 => h e1 (List.mem_cons_of_mem e h1))) (fun hi => ?_)
    rw [(h e (List.mem_cons_self e es)).2.2.1] at hi
    cases hi

/-- Every event of `dev_urandom` is a device operation. -/
theorem dev_urandom_events (w : World) (size : Int) (raise : Bool) (script : List Resp) :
    ∀ e ∈ (dev_urandom w size raise script).events, e.isDevice = true := by
  obtain ⟨pre, hpre, h⟩ := dev_urandom_shape w size raise script
  rcases h with ⟨fd, w1, rest, -, -, -, h⟩ | ⟨fd, rest, -, -, h⟩ | ⟨h, -, -⟩
  · rw [h]
    intro e he
    rcases List.mem_append.mp he with h1 | h1
    · exact (hpre e h1).1
    · rcases dev_urandom_read_events fd w1 0 size rest e h1 with ⟨d, n, r, h2⟩ | ⟨s, h2⟩ <;>
        subst h2 <;> rfl
  · rw [h]
    intro e he
    rcases List.mem_append.mp he with h1 | h1
    · exact (hpre e h1).1
    · rcases dev_urandom_read_noraise_events fd w 0 size rest e h1 with ⟨d, n, r, h2⟩ | h2 <;>
        subst h2 <;> rfl
  · rw [h]
    exact fun e he => (hpre e he).1

theorem dev_urandom_ret (w : World) (size : Int) (raise : Bool) (script : List Resp) :
    (dev_urandom w size raise script).ret = none ∨
    (dev_urandom w size raise script).ret = some 0 ∨
    (dev_urandom w size raise script).ret = some (-1) := by
  obtain ⟨pre, -, h⟩ := dev_urandom_shape w size raise script
  rcases h with ⟨fd, w1, rest, -, -, -, h⟩ | ⟨fd, rest, -, -, h⟩ | ⟨-, -, h⟩
  · rw [h]
    exact dev_urandom_read_ret fd w1 0 size rest
  · rw [h]
    exact dev_urandom_read_noraise_ret fd w 0 size rest
  · rcases h with h | ⟨h, -⟩
    · exact Or.inl h
    · exact Or.inr (Or.inr h)

/-- A run of `dev_urandom` that returns has performed a device operation. -/
theorem dev_urandom_first (w : World) (size : Int) (raise : Bool) (script : List Resp)
    (h : (dev_urandom w size raise script).ret ≠ none) :
    (dev_urandom w size raise script).events ≠ [] := by
  obtain ⟨pre, -, hs⟩ := dev_urandom_shape w size raise script
  rcases hs with ⟨fd, w1, rest, -, hne, -, hs⟩ | ⟨fd, rest, -, hne, hs⟩ | ⟨hev, -, hs⟩
  · rw [hs, emit_events]
    intro h1
    exact hne (List.append_eq_nil.mp h1).1
  · rw [hs, emit_events]
    intro h1
    exact hne (List.append_eq_nil.mp h1).1
  · rcases hs with hs | ⟨-, hne⟩
    · exact absurd hs h
    · rw [hev]
      exact hne

theorem dev_urandom_mem (w : World) (size : Int) (raise : Bool) (script : List Resp)
    (hs : 0 < size) :
    Framed w 0 size (dev_urandom w size raise script) ∧
    ((dev_urandom w size raise script).ret = some 0 →
      Filled 0 size (dev_urandom w size raise script)) := by
  obtain ⟨pre, hpre, h⟩ := dev_urandom_shape w size raise script
  rcases h with ⟨fd, w1, rest, -, -, hmem, h⟩ | ⟨fd, rest, -, -, h⟩ | ⟨-, hmem, h⟩
  · rw [h]
    exact mem_step 0 w w1 0 0 size size [] pre _ (by simpa using hs.le) rfl (by simp)
      (by rw [store_nil, hmem]) (delivered_devStep _ pre hpre)
      (dev_urandom_read_mem fd w1 0 size rest hs)
  · rw [h]
    exact mem_step 0 w w 0 0 size size [] pre _ (by simpa using hs.le) rfl (by simp)
      (by rw [store_nil]) (delivered_devStep _ pre hpre)
      (dev_urandom_read_noraise_mem fd w 0 size rest)
  · refine mem_stop 0 w 0 size _ hmem ?_
    rcases h with h | ⟨h, -⟩ <;> rw [h] <;> simp

/-- Without `raise`, `dev_urandom` does nothing that needs `raise` and repeats at once
every `read` that `EINTR` interrupted. -/
theorem dev_urandom_noraise (w : World) (size : Int) (script : List Resp) :
    (∀ e ∈ (dev_urandom w size false script).events, e.needsRaise = false) ∧
    retriedDirectly (dev_urandom w size false script).events
      (dev_urandom w size false script).ret.isSome = true := by
  obtain ⟨pre, hpre, h⟩ := dev_urandom_shape w size false script
  rcases h with ⟨fd, w1, rest, hr, -⟩ | ⟨fd, rest, -, -, h⟩ | ⟨h, -, -⟩
  · cases hr
  · rw [h]
    refine ⟨?_, ?_⟩
    · intro e he
      rcases List.mem_append.mp he with h1 | h1
      · exact (hpre e h1).2.2.2 rfl
      · rcases dev_urandom_read_noraise_events fd w 0 size rest e h1 with ⟨d, n, r, h2⟩ | h2 <;>
          subst h2 <;> rfl
    · exact retried_append pre _ _ (retried_devStep _ pre true hpre)
        (dev_urandom_read_noraise_retry fd w 0 size rest).1
  · rw [h]
    exact ⟨fun e he => (hpre e he).2.2.2 rfl, retried_devStep _ pre _ hpre⟩

/-! ## The syscall backends as `pyurandom` calls them -/

theorem py_getrandom_events (sun : Bool) (w : World) (size : Int) (blocking raise : Bool)
    (script : List Resp) :
    ∀ e ∈ (py_getrandom sun w size blocking raise script).events,
      e.isDevice = false ∧ (raise = false → e.needsRaise = false) := by
  unfold py_getrandom
  split
  · intro e he
    cases he
  · exact py_getrandom_loop_events sun blocking raise w 0 size script

theorem py_getentropy_events (w : World) (size : Int) (raise : Bool) (script : List Resp) :
    ∀ e ∈ (py_getentropy w size raise script).events,
      e.isDevice = false ∧ (raise = false → e.needsRaise = false) := by
  unfold py_getentropy
  split
  · intro e he
    cases he
  · exact py_getentropy_loop_events raise w 0 size script

theorem py_getrandom_ret (sun : Bool) (w : World) (size : Int) (blocking raise : Bool)
    (script : List Resp) :
    (py_getrandom sun w size blocking raise script).ret = none ∨
    (py_getrandom sun w size blocking raise script).ret = some 1 ∨
    (py_getrandom sun w size blocking raise script).ret = some 0 ∨
    (py_getrandom sun w size blocking raise script).ret = some (-1) := by
  unfold py_getrandom
  split
  · exact Or.inr (Or.inr (Or.inl rfl))
  · exact py_getrandom_loop_ret sun blocking raise w 0 size script

theorem py_getentropy_ret (w : World) (size : Int) (raise : Bool) (script : List Resp) :
    (py_getentropy w size raise script).ret = none ∨
    (py_getentropy w size raise script).ret = some 1 ∨
    (py_getentropy w size raise script).ret = some 0 ∨
    (py_getentropy w size raise script).ret = some (-1) := by
  unfold py_getentropy
  split
  · exact Or.inr (Or.inr (Or.inl rfl))
  · exact py_getentropy_loop_ret raise w 0 size script

theorem py_getrandom_mem (sun : Bool) (w : World) (size : Int) (blocking raise : Bool)
    (script : List Resp) :
    Framed w 0 size (py_getrandom sun w size blocking raise script) ∧
    ((py_getrandom sun w size blocking raise script).ret = some 1 →
      Filled 0 size (py_getrandom sun w size blocking raise script)) := by
  unfold py_getrandom
  split
  · exact mem_stop 1 w 0 size _ rfl (by simp)
  · exact py_getrandom_loop_mem sun blocking raise w 0 size script

theorem py_getentropy_mem (w : World) (size : Int) (raise : Bool) (script : List Resp) :
    Framed w 0 size (py_getentropy w size raise script) ∧
    ((py_getentropy w size raise script).ret = some 1 →
      Filled 0 size (py_getentropy w size raise script)) := by
  unfold py_getentropy
  split
  · exact mem_stop 1 w 0 size _ rfl (by simp)
  · exact py_getentropy_loop_mem raise w 0 size script

theorem py_getrandom_retry (sun : Bool) (w : World) (size : Int) (blocking : Bool)
    (script : List Resp) :
    retriedDirectly (py_getrandom sun w size blocking false script).events
      (py_getrandom sun w size blocking false script).ret.isSome = true := by
  unfold py_getrandom
  split
  · rfl
  · exact (py_getrandom_loop_retry sun blocking w 0 size script).1

theorem py_getentropy_retry (w : World) (size : Int) (script : List Resp) :
    retriedDirectly (py_getentropy w size false script).events
      (py_getentropy w size false script).ret.isSome = true := by
  unfold py_getentropy
  split
  · rfl
  · exact (py_getentropy_loop_retry w 0 size script).1

/-! ## The dispatcher -/

theorem any_isDevice_false (es : List Event) (h : ∀ e ∈ es, e.isDevice = false) :
    es.any Event.isDevice = false := by
  rw [List.any_eq_false]
  intro e he
  rw [h e he]
  decide

theorem any_isDevice_true (es : List Event) (h : ∀ e ∈ es, e.isDevice = true) (hne : es ≠ []) :
    es.any Event.isDevice = true := by
  cases es with
  | nil => exact absurd rfl hne
  | cons e es => simp [h e (List.mem_cons_self e es)]

theorem pyurandom_dispatch_spec (size : Int) (raise : Bool) (res : Out)
    (hret : res.ret = none ∨ res.ret = some 1 ∨ res.ret = some 0 ∨ res.ret = some (-1))
    (hev : ∀ e ∈ res.events, e.isDevice = false) :
    Dispatched size raise res (pyurandom_dispatch size raise res) := by
  have h0 : res.ret = some 0 →
      pyurandom_dispatch size raise res =
        emit res.events (dev_urandom res.w size raise res.rest) := by
    intro h
    unfold pyurandom_dispatch
    rw [h]
    rfl
  have hm : res.ret = some (-1) → pyurandom_dispatch size raise res = res := by
    intro h
    unfold pyurandom_dispatch
    rw [h]
    simp only [show ((-1 : Int) < 0) from by decide, if_true]
    cases res
    simp only [Out.mk.injEq, and_true, true_and] at h ⊢
    exact h.symm
  have h1 : res.ret = some 1 → pyurandom_dispatch size raise res = { res with ret := some 0 } := by
    intro h
    unfold pyurandom_dispatch
    rw [h]
    rfl
  have hn : res.ret = none → pyurandom_dispatch size raise res = res := by
    intro h
    unfold pyurandom_dispatch
    rw [h]
  refine ⟨hret, hev, h0, hm, h1, hn, ?_, ?_⟩
  · intro hout
    rcases hret with h | h | h | h
    · rw [hn h] at hout
      exact absurd h hout
    · rw [h1 h, h]
      simp [any_isDevice_false res.events hev]
    · rw [h0 h] at hout ⊢
      rw [emit_ret] at hout
      rw [emit_events, List.any_append, any_isDevice_false res.events hev,
        any_isDevice_true _ (dev_urandom_events _ _ _ _) (dev_urandom_first _ _ _ _ hout)]
      simp [h]
    · rw [hm h, h]
      simp [any_isDevice_false res.events hev]
  · rcases hret with h | h | h | h
    · rw [hn h]
      exact Or.inl h
    · rw [h1 h]
      exact Or.inr (Or.inl rfl)
    · rw [h0 h, emit_ret]
      exact dev_urandom_ret _ _ _ _
    · rw [hm h]
      exact Or.inr (Or.inr h)

/-- C3: on a build with a syscall backend and for `size > 0`, `pyurandom` returns failure
with the backend's events alone when the backend returns `-1`, returns success with the
backend's events alone when it returns `1`, and continues with `dev_urandom` on the world
and script the backend left exactly when it returns `0`; a run that returns contains a
device operation if and only if the backend returned `0`; and `pyurandom` returns `0` or
`-1`. -/
theorem pyurandom_dispatches (w : World) (size : Int) (blocking raise : Bool)
    (script : List Resp) (hsize : 0 < size) :
    (∀ sun, Dispatched size raise (py_getrandom sun w size blocking raise script)
      (pyurandom (Build.getrandom sun) w size blocking raise script)) ∧
    Dispatched size raise (py_getentropy w size raise script)
      (pyurandom Build.getentropy w size blocking raise script) := by
  have e1 : ∀ b, pyurandom b w size blocking raise script =
      match b with
      | Build.getrandom sun =>
        pyurandom_dispatch size raise (py_getrandom sun w size blocking raise script)
      | Build.getentropy =>
        pyurandom_dispatch size raise (py_getentropy w size raise script)
      | Build.devurandom => dev_urandom w size raise script := by
    intro b
    unfold pyurandom
    rw [if_neg (by omega), if_neg (by omega)]
  refine ⟨fun sun => ?_, ?_⟩
  · rw [e1]
    exact pyurandom_dispatch_spec size raise _ (py_getrandom_ret _ _ _ _ _ _)
      (fun e he => (py_getrandom_events _ _ _ _ _ _ e he).1)
  · rw [e1]
    exact pyurandom_dispatch_spec size raise _ (py_getentropy_ret _ _ _ _)
      (fun e he => (py_getentropy_events _ _ _ _ e he).1)

/-- C3 on a `getentropy` build whose kernel does not know the call and whose device file
delivers four bytes. -/
theorem pyurandom_dispatches_witness :
    (0 : Int) < 4 ∧
    Dispatched 4 true
      (py_getentropy (World.init fun _ => 0) 4 true
        [Resp.fail Errno.ENOSYS, Resp.fd 3, Resp.stat 1 2, Resp.data [9, 9, 9, 9]])
      (pyurandom Build.getentropy (World.init fun _ => 0) 4 true true
        [Resp.fail Errno.ENOSYS, Resp.fd 3, Resp.stat 1 2, Resp.data [9, 9, 9, 9]]) :=
  ⟨by decide,
   (pyurandom_dispatches (World.init fun _ => 0) 4 true true
      [Resp.fail Errno.ENOSYS, Resp.fd 3, Resp.stat 1 2, Resp.data [9, 9, 9, 9]]
      (by decide)).2⟩

/-! ## Calls without `raise` -/

theorem needsRaise_false (e : Event) (h : e.needsRaise = false) :
    e.isSignalCheck = false ∧ e.releasesLock = false ∧ e.makesError = false := by
  unfold Event.needsRaise at h
  simp only [Bool.or_eq_false_iff] at h
  exact ⟨h.1.1, h.1.2, h.2⟩

theorem pyurandom_dispatch_noraise (size : Int) (res : Out)
    (hev : ∀ e ∈ res.events, e.needsRaise = false)
    (hre : retriedDirectly res.events res.ret.isSome = true) :
    (∀ e ∈ (pyurandom_dispatch size false res).events, e.needsRaise = false) ∧
    retriedDirectly (pyurandom_dispatch size false res).events
      (pyurandom_dispatch size false res).ret.isSome = true := by
  unfold pyurandom_dispatch
  cases hr : res.ret with
  | none =>
    simp only []
    rw [hr] at hre
    exact ⟨hev, by rw [hr]; exact hre⟩
  | some r =>
    rw [hr] at hre
    simp only []
    split
    · exact ⟨hev, hre⟩
    · split
      · exact ⟨hev, hre⟩
      · refine ⟨?_, ?_⟩
        · intro e he
          rcases List.mem_append.mp he with h | h
          · exact hev e h
          · exact (dev_urandom_noraise res.w size res.rest).1 e h
        · exact retried_append _ _ _ hre (dev_urandom_noraise res.w size res.rest).2

/-- C8: a call `pyurandom(buffer, size, blocking, 0)`, on every build, for every size,
blocking flag, world and script of responses, stopped or not: no event of the run is a
`PyErr_CheckSignals`, a release of the GIL, or the construction of an error object (a
`PyErr_*` call or one of the raising helpers `_Py_open`, `_Py_fstat`, `_Py_read`); every
`getrandom`, `getentropy` or `read` that fails with `EINTR` is followed at once by the
same call with the same arguments, and the run does not return on one; and these are the
events of the call that `_PyRandom_Init` makes. -/
theorem pyurandom_noraise (b : Build) (w : World) (size : Int) (blocking : Bool)
    (script : List Resp) :
    (∀ e ∈ (pyurandom b w size blocking false script).events,
      e.isSignalCheck = false ∧ e.releasesLock = false ∧ e.makesError = false) ∧
    retriedDirectly (pyurandom b w size blocking false script).events
      (pyurandom b w size blocking false script).ret.isSome = true ∧
    ∀ secret_size : Nat,
      (_PyRandom_Init_entropy b secret_size w script).events =
        (pyurandom b w secret_size false false script).events := by
  have key : (∀ e ∈ (pyurandom b w size blocking false script).events, e.needsRaise = false) ∧
      retriedDirectly (pyurandom b w size blocking false script).events
        (pyurandom b w size blocking false script).ret.isSome = true := by
    unfold pyurandom
    split
    · exact ⟨fun e he => (by cases he), rfl⟩
    · split
      · exact ⟨fun e he => (by cases he), rfl⟩
      · cases b with
        | getrandom sun =>
          exact pyurandom_dispatch_noraise size _
            (fun e he => (py_getrandom_events sun w size blocking false script e he).2 rfl)
            (py_getrandom_retry sun w size blocking script)
        | getentropy =>
          exact pyurandom_dispatch_noraise size _
            (fun e he => (py_getentropy_events w size false script e he).2 rfl)
            (py_getentropy_retry w size script)
        | devurandom => exact dev_urandom_noraise w size script
  exact ⟨fun e he => needsRaise_false e (key.1 e he), key.2, fun _ => rfl⟩

/-- C8 on a `getrandom` build: two interruptions, then `EAGAIN`, then the device file,
itself interrupted once. -/
theorem pyurandom_noraise_witness :
    (pyurandom (Build.getrandom false) (World.init fun _ => 0) 2 false false
        [Resp.fail Errno.EINTR, Resp.fail Errno.EINTR, Resp.fail Errno.EAGAIN, Resp.fd 3,
         Resp.fail Errno.EINTR, Resp.data [5, 6]]).events =
      [Event.getrandom 0 2 1 (Resp.fail Errno.EINTR),
       Event.getrandom 0 2 1 (Resp.fail Errno.EINTR),
       Event.getrandom 0 2 1 (Resp.fail Errno.EAGAIN),
       Event.Py_open_noraise (Resp.fd 3),
       Event.read 3 0 2 (Resp.fail Errno.EINTR),
       Event.read 3 0 2 (Resp.data [5, 6]),
       Event.close 3] ∧
    retriedDirectly
      (pyurandom (Build.getrandom false) (World.init fun _ => 0) 2 false false
        [Resp.fail Errno.EINTR, Resp.fail Errno.EINTR, Resp.fail Errno.EAGAIN, Resp.fd 3,
         Resp.fail Errno.EINTR, Resp.data [5, 6]]).events
      (pyurandom (Build.getrandom false) (World.init fun _ => 0) 2 false false
        [Resp.fail Errno.EINTR, Resp.fail Errno.EINTR, Resp.fail Errno.EAGAIN, Resp.fd 3,
         Resp.fail Errno.EINTR, Resp.data [5, 6]]).ret.isSome = true :=
  ⟨by decide,
   (pyurandom_noraise (Build.getrandom false) (World.init fun _ => 0) 2 false
      [Resp.fail Errno.EINTR, Resp.fail Errno.EINTR, Resp.fail Errno.EAGAIN, Resp.fd 3,
       Resp.fail Errno.EINTR, Resp.data [5, 6]]).2.1⟩

/-! ## The content of a successful fill -/

theorem filter_isDevice_false (es : List Event) (h : ∀ e ∈ es, e.isDevice = false) :
    es.filter Event.isDevice = [] := by
  rw [List.filter_eq_nil_iff]
  intro e he
  rw [h e he]
  decide

theorem filter_isDevice_true (es : List Event) (h : ∀ e ∈ es, e.isDevice = true) :
    es.filter Event.isDevice = es := by
  rw [List.filter_eq_self]
  exact h

theorem completedBy_syscall (es : List Event) (h : ∀ e ∈ es, e.isDevice = false) :
    completedBy es = delivered es := by
  unfold completedBy
  rw [any_isDevice_false es h]
  rfl

theorem completedBy_device (es1 es2 : List Event) (h1 : ∀ e ∈ es1, e.isDevice = false)
    (h2 : ∀ e ∈ es2, e.isDevice = true) (hne : es2 ≠ []) :
    completedBy (es1 ++ es2) = delivered es2 := by
  unfold completedBy
  rw [List.any_append, any_isDevice_false es1 h1, any_isDevice_true es2 h2 hne,
    List.filter_append, filter_isDevice_false es1 h1, filter_isDevice_true es2 h2]
  rfl

theorem filledBy_of (w : World) (size : Int) (o : Out) (chunks : List Nat)
    (hc : completedBy o.events = chunks) (hframe : ∀ i, size.toNat ≤ i → o.w.mem i = w.mem i)
    (hlen : chunks.length = size.toNat)
    (hmem : ∀ i, i < size.toNat → o.w.mem (0 + i) = chunks.getD i 0) :
    FilledBy w size o := by
  refine ⟨by rw [hc, hlen], ?_, hframe⟩
  intro i hi
  rw [hc, ← hmem i hi, Nat.zero_add]

theorem pyurandom_dispatch_fill (w : World) (size : Int) (raise : Bool) (res : Out)
    (hs : 0 < size)
    (hret : res.ret = none ∨ res.ret = some 1 ∨ res.ret = some 0 ∨ res.ret = some (-1))
    (hev : ∀ e ∈ res.events, e.isDevice = false)
    (hmem : Framed w 0 size res ∧ (res.ret = some 1 → Filled 0 size res))
    (hok : (pyurandom_dispatch size raise res).ret = some 0) :
    FilledBy w size (pyurandom_dispatch size raise res) := by
  obtain ⟨-, -, h0, hm, h1, hn, -, -⟩ := pyurandom_dispatch_spec size raise res hret hev
  rcases hret with h | h | h | h
  · rw [hn h, h] at hok
    cases hok
  · rw [h1 h]
    obtain ⟨hl, hc⟩ := hmem.2 h
    exact filledBy_of w size _ _ (completedBy_syscall res.events hev)
      (fun i hi => hmem.1 i (Or.inr (by omega))) hl hc
  · rw [h0 h] at hok ⊢
    rw [emit_ret] at hok
    obtain ⟨hframe, hfill⟩ := dev_urandom_mem res.w size raise res.rest hs
    obtain ⟨hl, hc⟩ := hfill hok
    refine filledBy_of w size _ _
      (completedBy_device res.events _ hev (dev_urandom_events _ _ _ _)
        (dev_urandom_first _ _ _ _ (by rw [hok]; simp)))
      ?_ hl hc
    intro i hi
    rw [emit_w, hframe i (Or.inr (by omega))]
    exact hmem.1 i (Or.inr (by omega))
  · rw [hm h, h] at hok
    cases hok

theorem pyurandom_fill (b : Build) (w : World) (size : Int) (blocking raise : Bool)
    (script : List Resp) (hok : (pyurandom b w size blocking raise script).ret = some 0) :
    FilledBy w size (pyurandom b w size blocking raise script) := by
  unfold pyurandom at hok ⊢
  split at hok
  · cases hok
  · rename_i hneg
    split at hok
    · rename_i h0
      rw [if_neg hneg, if_pos h0]
      subst h0
      exact ⟨rfl, fun i hi => absurd hi (by simp), fun i _ => rfl⟩
    · rename_i h0
      rw [if_neg hneg, if_neg h0]
      have hs : 0 < size := by omega
      cases b with
      | getrandom sun =>
        exact pyurandom_dispatch_fill w size raise _ hs (py_getrandom_ret _ _ _ _ _ _)
          (fun e he => (py_getrandom_events _ _ _ _ _ _ e he).1)
          (py_getrandom_mem _ _ _ _ _ _) hok
      | getentropy =>
        exact pyurandom_dispatch_fill w size raise _ hs (py_getentropy_ret _ _ _ _)
          (fun e he => (py_getentropy_events _ _ _ _ e he).1)
          (py_getentropy_mem _ _ _ _) hok
      | devurandom =>
        simp only [] at hok ⊢
        obtain ⟨hframe, hfill⟩ := dev_urandom_mem w size raise script hs
        obtain ⟨hl, hc⟩ := hfill hok
        have hcb := completedBy_device [] _ (fun e he => (by cases he))
          (dev_urandom_events w size raise script)
          (dev_urandom_first _ _ _ _ (by rw [hok]; simp))
        exact filledBy_of w size _ _ hcb (fun i hi => hframe i (Or.inr (by omega))) hl hc

/-- C1: when `_PyOS_URandom` or `_PyOS_URandomNonblock` returns `0`, the bytes delivered by
the backend that completed the request (the device file when it was used, the syscall
otherwise) are `size` in number, they are in order the content of `buffer[0 .. size-1]`,
and every byte outside that range is as it was before the call. -/
theorem fill_success_content (b : Build) (w : World) (size : Int) (script : List Resp) :
    ((_PyOS_URandom b w size script).ret = some 0 →
      FilledBy w size (_PyOS_URandom b w size script)) ∧
    ((_PyOS_URandomNonblock b w size script).ret = some 0 →
      FilledBy w size (_PyOS_URandomNonblock b w size script)) :=
  ⟨pyurandom_fill b w size true true script, pyurandom_fill b w size false true script⟩

/-- C1 where `getrandom` delivers three of five bytes and then fails with `ENOSYS`: the
five bytes of the buffer are the first five the device file delivered. -/
theorem fill_success_content_witness :
    (0 : Int) ≤ 5 ∧
    bytes (_PyOS_URandom (Build.getrandom false) (World.init fun _ => 0) 5
      [Resp.data [1, 2, 3], Resp.fail Errno.ENOSYS, Resp.fd 3, Resp.stat 1 2,
       Resp.data [4, 5, 6], Resp.data [7, 8, 9]]).w.mem 6 = [4, 5, 6, 7, 8, 0] ∧
    FilledBy (World.init fun _ => 0) 5
      (_PyOS_URandom (Build.getrandom false) (World.init fun _ => 0) 5
        [Resp.data [1, 2, 3], Resp.fail Errno.ENOSYS, Resp.fd 3, Resp.stat 1 2,
         Resp.data [4, 5, 6], Resp.data [7, 8, 9]]) :=
  ⟨by decide, by decide,
   (fill_success_content (Build.getrandom false) (World.init fun _ => 0) 5
      [Resp.data [1, 2, 3], Resp.fail Errno.ENOSYS, Resp.fd 3, Resp.stat 1 2,
       Resp.data [4, 5, 6], Resp.data [7, 8, 9]]).1 (by decide)⟩

/-! ## The latches of the syscall backends -/

theorem py_getrandom_latch (sun : Bool) (w : World) (size : Int) (blocking raise : Bool)
    (script : List Resp) :
    (py_getrandom sun w size blocking raise script).w.getrandom_works =
      (w.getrandom_works &&
        !(py_getrandom sun w size blocking raise script).events.any Event.isLatchFailure) ∧
    ((py_getrandom sun w size blocking raise script).events.any Event.isLatchFailure = true →
      (py_getrandom sun w size blocking raise script).ret = some 0) := by
  unfold py_getrandom
  split
  · rename_i h
    simp [h]
  · exact ⟨(py_getrandom_loop_latch sun blocking raise w 0 size script).1,
      (py_getrandom_loop_latch sun blocking raise w 0 size script).2.1⟩

theorem py_getentropy_latch (w : World) (size : Int) (raise : Bool) (script : List Resp) :
    (py_getentropy w size raise script).w.getentropy_works =
      (w.getentropy_works &&
        !(py_getentropy w size raise script).events.any Event.isLatchFailure) ∧
    ((py_getentropy w size raise script).events.any Event.isLatchFailure = true →
      (py_getentropy w size raise script).ret = some 0) := by
  unfold py_getentropy
  split
  · rename_i h
    simp [h]
  · exact ⟨(py_getentropy_loop_latch raise w 0 size script).1,
      (py_getentropy_loop_latch raise w 0 size script).2.1⟩

theorem py_getrandom_latched (sun : Bool) (w : World) (size : Int) (blocking raise : Bool)
    (script : List Resp) (h : w.getrandom_works = false) :
    py_getrandom sun w size blocking raise script =
      { ret := some 0, w := w, events := [], rest := script } := by
  unfold py_getrandom
  rw [if_pos h]

theorem py_getentropy_latched (w : World) (size : Int) (raise : Bool)
    (script : List Resp) (h : w.getentropy_works = false) :
    py_getentropy w size raise script =
      { ret := some 0, w := w, events := [], rest := script } := by
  unfold py_getentropy
  rw [if_pos h]

theorem py_getrandom_calls_latched (sun : Bool) (calls : List Call) :
    ∀ w : World, w.getrandom_works = false →
      (py_getrandom_calls sun w calls).1 = w ∧
      ∀ o ∈ (py_getrandom_calls sun w calls).2, o.ret = some 0 ∧ o.events = [] := by
  induction calls with
  | nil =>
    intro w _
    exact ⟨rfl, fun o ho => (by cases ho)⟩
  | cons c cs ih =>
    intro w h
    have e := py_getrandom_latched sun w c.size c.blocking c.raise c.script h
    simp only [py_getrandom_calls, e]
    refine ⟨(ih w h).1, ?_⟩
    intro o ho
    rcases List.mem_cons.mp ho with h1 | h1
    · subst h1
      exact ⟨rfl, rfl⟩
    · exact (ih w h).2 o h1

theorem py_getentropy_calls_latched (calls : List Call) :
    ∀ w : World, w.getentropy_works = false →
      (py_getentropy_calls w calls).1 = w ∧
      ∀ o ∈ (py_getentropy_calls w calls).2, o.ret = some 0 ∧ o.events = [] := by
  induction calls with
  | nil =>
    intro w _
    exact ⟨rfl, fun o ho => (by cases ho)⟩
  | cons c cs ih =>
    intro w h
    have e := py_getentropy_latched w c.size c.raise c.script h
    simp only [py_getentropy_calls, e]
    refine ⟨(ih w h).1, ?_⟩
    intro o ho
    rcases List.mem_cons.mp ho with h1 | h1
    · subst h1
      exact ⟨rfl, rfl⟩
    · exact (ih w h).2 o h1

/-- C9: both latches are set at process start; a call of `py_getrandom` leaves
`getrandom_works` set exactly when it was set before and no `getrandom` of the call failed
with `ENOSYS` or `EPERM` (so no other failure clears it and no call sets it again), and
such a failure makes the call return `0`; in a world where the latch is clear a call, of
any size and mode and whatever the kernel would answer, returns `0` with no event, no
response read and the world unchanged, and so does every call of any later sequence of
calls. The same holds of `py_getentropy` and `getentropy_works`. -/
theorem latch_monotonic (sun : Bool) (w : World) (size : Int) (blocking raise : Bool)
    (script : List Resp) (calls : List Call) :
    (∀ mem, (World.init mem).getrandom_works = true ∧
      (World.init mem).getentropy_works = true) ∧
    ((py_getrandom sun w size blocking raise script).w.getrandom_works =
        (w.getrandom_works &&
          !(py_getrandom sun w size blocking raise script).events.any Event.isLatchFailure) ∧
      ((py_getrandom sun w size blocking raise script).events.any Event.isLatchFailure = true →
        (py_getrandom sun w size blocking raise script).ret = some 0) ∧
      (w.getrandom_works = false →
        py_getrandom sun w size blocking raise script =
          { ret := some 0, w := w, events := [], rest := script } ∧
        (py_getrandom_calls sun w calls).1 = w ∧
        ∀ o ∈ (py_getrandom_calls sun w calls).2, o.ret = some 0 ∧ o.events = [])) ∧
    ((py_getentropy w size raise script).w.getentropy_works =
        (w.getentropy_works &&
          !(py_getentropy w size raise script).events.any Event.isLatchFailure) ∧
      ((py_getentropy w size raise script).events.any Event.isLatchFailure = true →
        (py_getentropy w size raise script).ret = some 0) ∧
      (w.getentropy_works = false →
        py_getentropy w size raise script =
          { ret := some 0, w := w, events := [], rest := script } ∧
        (py_getentropy_calls w calls).1 = w ∧
        ∀ o ∈ (py_getentropy_calls w calls).2, o.ret = some 0 ∧ o.events = [])) := by
  refine ⟨fun mem => ⟨rfl, rfl⟩, ⟨?_, ?_, ?_⟩, ⟨?_, ?_, ?_⟩⟩
  · exact (py_getrandom_latch sun w size blocking raise script).1
  · exact (py_getrandom_latch sun w size blocking raise script).2
  · intro h
    exact ⟨py_getrandom_latched sun w size blocking raise script h,
      py_getrandom_calls_latched sun calls w h⟩
  · exact (py_getentropy_latch w size raise script).1
  · exact (py_getentropy_latch w size raise script).2
  · intro h
    exact ⟨py_getentropy_latched w size raise script h, py_getentropy_calls_latched calls w h⟩

/-- C9 on a run: `EAGAIN` leaves the latch set, `EPERM` clears it, and two later calls
whose kernel would deliver bytes leave the world as it was. -/
theorem latch_monotonic_witness :
    (py_getrandom false (World.init fun _ => 0) 4 false false
      [Resp.fail Errno.EAGAIN]).w.getrandom_works = true ∧
    (py_getrandom false (World.init fun _ => 0) 4 true true
      [Resp.fail Errno.EPERM]).w.getrandom_works = false ∧
    (py_getrandom_calls false
      (py_getrandom false (World.init fun _ => 0) 4 true true [Resp.fail Errno.EPERM]).w
      [{ size := 8, blocking := true, raise := true, script := [Resp.data [1, 2]] },
       { size := 2, blocking := false, raise := false, script := [Resp.data [3, 4]] }]).1 =
      (py_getrandom false (World.init fun _ => 0) 4 true true [Resp.fail Errno.EPERM]).w :=
  ⟨by decide, by decide,
   ((latch_monotonic false
      (py_getrandom false (World.init fun _ => 0) 4 true true [Resp.fail Errno.EPERM]).w
      0 true true []
      [{ size := 8, blocking := true, raise := true, script := [Resp.data [1, 2]] },
       { size := 2, blocking := false, raise := false, script := [Resp.data [3, 4]] }]).2.1.2.2
      (by decide)).2.1⟩

/-! ## The descriptor cache -/

theorem size_t_eq (size : Int) (h0 : 0 < size) (h1 : size ≤ PY_SSIZE_T_MAX) :
    (size_t size : Int) = size := by
  unfold size_t
  unfold PY_SSIZE_T_MAX at h1
  omega

/-- When every read finds bytes ready, and enough of them in all, the `_Py_read` loop
returns `0` and every event of it is a successful `_Py_read` on `fd`. -/
theorem dev_urandom_read_ok (fd : Int) (reads : List (List Nat)) (more : List Resp) :
    ∀ (w : World) (dest : Nat) (size : Int), 0 < size → size ≤ PY_SSIZE_T_MAX →
      (∀ r ∈ reads, r ≠ []) → size ≤ ((reads.map List.length).sum : Nat) →
      (dev_urandom_read fd w dest size (reads.map Resp.data ++ more)).ret = some 0 ∧
      ∀ e ∈ (dev_urandom_read fd w dest size (reads.map Resp.data ++ more)).events,
        ∃ d c g, e = Event.Py_read fd d c (Resp.data g) := by
  induction reads with
  | nil =>
    intro w dest size h0 _ _ hlen
    simp at hlen
    omega
  | cons r rs ih =>
    intro w dest size h0 h1 hne hlen
    have hr : r ≠ [] := hne r (List.mem_cons_self r rs)
    have hrl : 0 < r.length := List.length_pos.mpr hr
    have hst := size_t_eq size h0 h1
    have htake : (r.take (size_t size)).length = min (size_t size) r.length :=
      List.length_take _ _
    simp only [List.map_cons, List.sum_cons, Nat.cast_add] at hlen
    rw [List.map_cons, List.cons_append, dev_urandom_read]
    simp only []
    rw [if_neg (by omega)]
    split
    · rename_i hmore
      have := ih { w with mem := store w.mem dest (r.take (size_t size)) }
        (dest + (r.take (size_t size)).length) (size - (r.take (size_t size)).length)
        hmore (by omega) (fun x hx => hne x (List.mem_cons_of_mem r hx)) (by omega)
      refine ⟨this.1, ?_⟩
      intro e he
      rcases List.mem_append.mp he with h | h
      · rw [List.mem_singleton] at h
        exact ⟨_, _, _, h⟩
      · exact this.2 e h
    · refine ⟨rfl, ?_⟩
      intro e he
      rw [List.mem_singleton] at he
      exact ⟨_, _, _, he⟩

theorem filled_emit (pre : List Event) (dest : Nat) (size : Int) (o : Out)
    (hpre : delivered pre = []) (h : Filled dest size o) : Filled dest size (emit pre o) := by
  unfold Filled at h ⊢
  rw [emit_events, delivered_append, hpre, List.nil_append, emit_w]
  exact h

/-- The run of `dev_urandom` with `raise` in a world whose cached descriptor has become
another file. -/
theorem dev_urandom_stale (w : World) (size : Int) (check : Resp) (n st_dev st_ino : Nat)
    (script : List Resp) (hfd : 0 ≤ w.urandom_cache.fd)
    (hstale : (∃ e, check = Resp.fail e) ∨
      ∃ d i, check = Resp.stat d i ∧ (d ≠ w.urandom_cache.st_dev ∨ i ≠ w.urandom_cache.st_ino)) :
    ∃ w1 : World, w1.mem = w.mem ∧
      w1.urandom_cache = { fd := n, st_dev := st_dev, st_ino := st_ino } ∧
      dev_urandom w size true (check :: Resp.fd n :: Resp.stat st_dev st_ino :: script) =
        emit [Event.Py_fstat_noraise w.urandom_cache.fd check, Event.Py_open (Resp.fd n),
              Event.Py_fstat n (Resp.stat st_dev st_ino)]
          (dev_urandom_read n w1 0 size script) := by
  rcases hstale with ⟨e, he⟩ | ⟨d, i, he, hne⟩
  · subst he
    refine ⟨{ w with errno := e,
                     urandom_cache := { fd := n, st_dev := st_dev, st_ino := st_ino } },
      ?_, ?_, ?_⟩
    rotate_left 2
    · unfold dev_urandom
      rw [if_pos rfl, if_pos hfd]
      simp only []
      unfold dev_urandom_open
      simp only [show ¬(0 : Int) ≤ -1 from by decide, if_false, emit_emit]
      rfl
    · rfl
    · rfl
  · subst he
    refine ⟨{ w with urandom_cache := { fd := n, st_dev := st_dev, st_ino := st_ino } },
      ?_, ?_, ?_⟩
    rotate_left 2
    · unfold dev_urandom
      rw [if_pos rfl, if_pos hfd]
      simp only []
      rw [if_pos hne]
      unfold dev_urandom_open
      simp only [show ¬(0 : Int) ≤ -1 from by decide, if_false, emit_emit]
      rfl
    · rfl
    · rfl

/-- C10: `dev_urandom` with `raise`, for `size > 0`, in a world whose cache holds a
descriptor. When `_Py_fstat_noraise` fails on it or reports another device or inode, and
the `_Py_open`, its `_Py_fstat` and the reads succeed: the call returns `0`, the cache
holds the new descriptor with the device and inode its `_Py_fstat` reported, no `close` is
performed (the old descriptor stays open), the events are the check, the open, the
`_Py_fstat` and then only successful `_Py_read`s on the new descriptor, and these
delivered the `size` bytes of the buffer. When the check reports the cached device and
inode: whatever follows, no `_Py_open` is performed, the cache is unchanged, and every
read is on the cached descriptor. -/
theorem dev_urandom_revalidates (w : World) (size : Int) (hsize : 0 < size)
    (hmax : size ≤ PY_SSIZE_T_MAX) (hfd : 0 ≤ w.urandom_cache.fd) :
    (∀ (check : Resp) (n st_dev st_ino : Nat) (reads : List (List Nat)) (more : List Resp),
      ((∃ e, check = Resp.fail e) ∨
        ∃ d i, check = Resp.stat d i ∧
          (d ≠ w.urandom_cache.st_dev ∨ i ≠ w.urandom_cache.st_ino)) →
      (∀ r ∈ reads, r ≠ []) → size ≤ ((reads.map List.length).sum : Nat) →
      ∃ tail : List Event,
        (dev_urandom w size true
          (check :: Resp.fd n :: Resp.stat st_dev st_ino ::
            (reads.map Resp.data ++ more))).events =
          [Event.Py_fstat_noraise w.urandom_cache.fd check, Event.Py_open (Resp.fd n),
           Event.Py_fstat n (Resp.stat st_dev st_ino)] ++ tail ∧
        (∀ e ∈ tail, ∃ d c g, e = Event.Py_read n d c (Resp.data g)) ∧
        (dev_urandom w size true
          (check :: Resp.fd n :: Resp.stat st_dev st_ino ::
            (reads.map Resp.data ++ more))).ret = some 0 ∧
        (dev_urandom w size true
          (check :: Resp.fd n :: Resp.stat st_dev st_ino ::
            (reads.map Resp.data ++ more))).w.urandom_cache =
          { fd := n, st_dev := st_dev, st_ino := st_ino } ∧
        (∀ fd, Event.close fd ∉
          (dev_urandom w size true
            (check :: Resp.fd n :: Resp.stat st_dev st_ino ::
              (reads.map Resp.data ++ more))).events) ∧
        Filled 0 size
          (dev_urandom w size true
            (check :: Resp.fd n :: Resp.stat st_dev st_ino ::
              (reads.map Resp.data ++ more))) ∧
        Framed w 0 size
          (dev_urandom w size true
            (check :: Resp.fd n :: Resp.stat st_dev st_ino ::
              (reads.map Resp.data ++ more)))) ∧
    (∀ rest : List Resp,
      (dev_urandom w size true
        (Resp.stat w.urandom_cache.st_dev w.urandom_cache.st_ino :: rest)).w.urandom_cache =
        w.urandom_cache ∧
      ∀ e ∈ (dev_urandom w size true
          (Resp.stat w.urandom_cache.st_dev w.urandom_cache.st_ino :: rest)).events,
        (∀ r, e ≠ Event.Py_open r) ∧
        (∀ fd d c r, e = Event.Py_read fd d c r → fd = w.urandom_cache.fd)) := by
  refine ⟨?_, ?_⟩
  · intro check n st_dev st_ino reads more hstale hreads hlen
    obtain ⟨w1, hmem, hcache, hrun⟩ :=
      dev_urandom_stale w size check n st_dev st_ino (reads.map Resp.data ++ more) hfd hstale
    obtain ⟨hret, hev⟩ := dev_urandom_read_ok n reads more w1 0 size hsize hmax hreads hlen
    have hworld := dev_urandom_read_world n w1 0 size (reads.map Resp.data ++ more)
    have hm := dev_urandom_read_mem n w1 0 size (reads.map Resp.data ++ more) hsize
    rw [hrun]
    refine ⟨_, rfl, hev, hret, ?_, ?_, ?_, ?_⟩
    · rw [emit_w, hworld.1, hcache]
    · intro fd hmemb
      rcases List.mem_append.mp hmemb with h | h
      · simp at h
      · obtain ⟨d, c, g, h1⟩ := hev _ h
        cases h1
    · exact filled_emit _ 0 size _ rfl (hm.2 hret)
    · intro i hi
      rw [emit_w, hm.1 i hi, hmem]
  · intro rest
    have hrun : dev_urandom w size true
        (Resp.stat w.urandom_cache.st_dev w.urandom_cache.st_ino :: rest) =
        emit [Event.Py_fstat_noraise w.urandom_cache.fd
                (Resp.stat w.urandom_cache.st_dev w.urandom_cache.st_ino)]
          (dev_urandom_read w.urandom_cache.fd w 0 size rest) := by
      unfold dev_urandom
      rw [if_pos rfl, if_pos hfd]
      simp only []
      rw [if_neg (by simp)]
      unfold dev_urandom_open
      rw [if_pos hfd]
    rw [hrun]
    refine ⟨?_, ?_⟩
    · rw [emit_w]
      exact (dev_urandom_read_world _ w 0 size rest).1
    · intro e he
      rcases List.mem_append.mp he with h | h
      · rw [List.mem_singleton] at h
        subst h
        exact ⟨fun r hr => (by cases hr), fun fd d c r hr => (by cases hr)⟩
      · rcases dev_urandom_read_events _ w 0 size rest e h with ⟨d, c, r, h1⟩ | ⟨s, h1⟩
        · subst h1
          refine ⟨fun r hr => (by cases hr), fun fd d1 c1 r1 hr => ?_⟩
          cases hr
          rfl
        · subst h1
          exact ⟨fun r hr => (by cases hr), fun fd d c r hr => (by cases hr)⟩

/-- C10 in a world whose cache holds descriptor 7 of inode 1 when descriptor 7 has become
inode 2: descriptor 9 is opened, cached, and read from. -/
theorem dev_urandom_revalidates_witness :
    (dev_urandom
      { (World.init fun _ => 0) with urandom_cache := { fd := 7, st_dev := 1, st_ino := 1 } }
      5 true
      (Resp.stat 1 2 :: Resp.fd 9 :: Resp.stat 1 2 ::
        ([[1, 2, 3], [9, 9, 9]].map Resp.data ++ []))).ret = some 0 ∧
    (dev_urandom
      { (World.init fun _ => 0) with urandom_cache := { fd := 7, st_dev := 1, st_ino := 1 } }
      5 true
      (Resp.stat 1 2 :: Resp.fd 9 :: Resp.stat 1 2 ::
        ([[1, 2, 3], [9, 9, 9]].map Resp.data ++ []))).w.urandom_cache =
      { fd := 9, st_dev := 1, st_ino := 2 } := by
  obtain ⟨tail, -, -, hret, hcache, -⟩ :=
    (dev_urandom_revalidates
      { (World.init fun _ => 0) with urandom_cache := { fd := 7, st_dev := 1, st_ino := 1 } }
      5 (by decide) (by decide) (by decide)).1
      (Resp.stat 1 2) 9 1 2 [[1, 2, 3], [9, 9, 9]] []
      (Or.inr ⟨1, 2, rfl, Or.inr (by decide)⟩) (by decide) (by decide)
  exact ⟨hret, hcache⟩

/-! ## The best-effort fill when the pool is not seeded -/

/-- C2, evaluated: on a `getrandom` build, when the non-blocking `getrandom` fails with
`EAGAIN`, `_PyOS_URandomNonblock(buffer, 32)` raises `OSError` from `errno` and returns
`-1`; it asks nothing of the device file, whose responses stay unread, and writes no byte.
The same call made with `raise` unset, as `_PyRandom_Init` makes it, falls through to the
device file and returns `0`. -/
theorem URandomNonblock_pool_not_seeded :
    (_PyOS_URandomNonblock (Build.getrandom false) (World.init fun _ => 0) 32
      [Resp.fail Errno.EAGAIN, Resp.fd 3, Resp.stat 1 2,
       Resp.data (List.replicate 32 7)]).ret = some (-1) ∧
    (_PyOS_URandomNonblock (Build.getrandom false) (World.init fun _ => 0) 32
      [Resp.fail Errno.EAGAIN, Resp.fd 3, Resp.stat 1 2,
       Resp.data (List.replicate 32 7)]).events =
      [Event.Py_BEGIN_ALLOW_THREADS,
       Event.getrandom 0 32 GRND_NONBLOCK (Resp.fail Errno.EAGAIN),
       Event.Py_END_ALLOW_THREADS,
       Event.PyErr_SetFromErrno Errno.EAGAIN] ∧
    (_PyOS_URandomNonblock (Build.getrandom false) (World.init fun _ => 0) 32
      [Resp.fail Errno.EAGAIN, Resp.fd 3, Resp.stat 1 2,
       Resp.data (List.replicate 32 7)]).rest =
      [Resp.fd 3, Resp.stat 1 2, Resp.data (List.replicate 32 7)] ∧
    bytes (_PyOS_URandomNonblock (Build.getrandom false) (World.init fun _ => 0) 32
      [Resp.fail Errno.EAGAIN, Resp.fd 3, Resp.stat 1 2,
       Resp.data (List.replicate 32 7)]).w.mem 32 = List.replicate 32 0 ∧
    (pyurandom (Build.getrandom false) (World.init fun _ => 0) 32 false false
      [Resp.fail Errno.EAGAIN, Resp.fd 3, Resp.data (List.replicate 32 7)]).ret = some 0 ∧
    bytes (pyurandom (Build.getrandom false) (World.init fun _ => 0) 32 false false
      [Resp.fail Errno.EAGAIN, Resp.fd 3, Resp.data (List.replicate 32 7)]).w.mem 32 =
      List.replicate 32 7 := by
  refine ⟨by decide, by decide, by decide, by decide, by decide, by decide⟩

/-! ## The seed from the environment -/

theorem isdigit_not_isspace (c : Char) (h : isdigit c = true) : isspace c = false := by
  cases hs : isspace c
  · rfl
  · exfalso
    unfold isspace at hs
    simp only [Bool.or_eq_true, decide_eq_true_eq] at hs
    rcases hs with ((((hs | hs) | hs) | hs) | hs) | hs <;> subst hs <;> revert h <;> decide

theorem isdigit_not_sign (c : Char) (h : isdigit c = true) : c ≠ '-' ∧ c ≠ '+' ∧ c ≠ 'r' := by
  refine ⟨?_, ?_, ?_⟩ <;> intro hc <;> subst hc <;> revert h <;> decide

theorem skipSpace_digits (c : Char) (cs : List Char) (h : isdigit c = true) :
    skipSpace (c :: cs) = c :: cs := by
  unfold skipSpace
  rw [List.dropWhile_cons_of_neg]
  rw [isdigit_not_isspace c h]
  decide

theorem afterSign_digits (c : Char) (cs : List Char) (h : isdigit c = true) :
    afterSign (c :: cs) = c :: cs := by
  unfold afterSign
  rw [if_neg]
  simp only [List.head?_cons, Option.some.injEq]
  have := isdigit_not_sign c h
  tauto

theorem hasMinus_digits (c : Char) (cs : List Char) (h : isdigit c = true) :
    hasMinus (c :: cs) = false := by
  unfold hasMinus
  simp only [List.head?_cons, Option.some.injEq, decide_eq_false_iff_not]
  exact (isdigit_not_sign c h).1

/-- The conversion of a string that consists of decimal digits. -/
theorem strtoul_digits (digits : List Char) (errno : Errno) (hne : digits ≠ [])
    (hall : ∀ c ∈ digits, isdigit c = true) (hv : decimalValue digits ≤ ULONG_MAX) :
    strtoul digits errno =
      { value := decimalValue digits, endptr := [], errno := errno } := by
  cases digits with
  | nil => exact absurd rfl hne
  | cons c cs =>
    have hc := hall c (List.mem_cons_self c cs)
    have ht : (c :: cs).takeWhile isdigit = c :: cs := List.takeWhile_eq_self_iff.mpr hall
    have hd : (c :: cs).dropWhile isdigit = [] := List.dropWhile_eq_nil_iff.mpr hall
    unfold strtoul
    simp only [skipSpace_digits c cs hc, afterSign_digits c cs hc, hasMinus_digits c cs hc, ht,
      hd]
    rw [if_neg (by simp), if_neg (by omega), if_neg (by simp)]

/-- The seed branch of `_PyRandom_Init` (lines 561-577) on a first call. -/
theorem PyRandom_Init_seed_branch (b : Build) (secret_size : Nat) (env : List Char)
    (w : World) (script : List Resp) (hw : w._Py_HashSecret_Initialized = false) (hne : env ≠ [])
    (hrandom : env ≠ ['r', 'a', 'n', 'd', 'o', 'm']) :
    _PyRandom_Init b secret_size (some env) w script =
      if (strtoul env w.errno).endptr ≠ [] ∨ 4294967295 < (strtoul env w.errno).value ∨
          ((strtoul env w.errno).errno = Errno.ERANGE ∧
            (strtoul env w.errno).value = ULONG_MAX) then
        { ending := some Ending.fatalHashSeed,
          w := { w with _Py_HashSecret_Initialized := true, errno := (strtoul env w.errno).errno },
          events := [], rest := script }
      else if (strtoul env w.errno).value = 0 then
        { ending := some Ending.returned,
          w := { w with _Py_HashSecret_Initialized := true, errno := (strtoul env w.errno).errno,
                        mem := store w.mem 0 (List.replicate secret_size 0) },
          events := [], rest := script }
      else
        { ending := some Ending.returned,
          w := { w with _Py_HashSecret_Initialized := true, errno := (strtoul env w.errno).errno,
                        mem := lcg_urandom ((strtoul env w.errno).value % 2 ^ 32) w.mem
                          secret_size },
          events := [], rest := script } := by
  cases env with
  | nil => exact absurd rfl hne
  | cons c cs =>
    unfold _PyRandom_Init
    rw [if_neg (by rw [hw]; decide)]
    simp only []
    rw [if_pos hrandom]

theorem bytes_store_zero (mem : Nat → Nat) (n : Nat) :
    bytes (store mem 0 (List.replicate n 0)) n = List.replicate n 0 := by
  rw [List.eq_replicate_iff]
  refine ⟨by simp [bytes], ?_⟩
  intro x hx
  unfold bytes at hx
  obtain ⟨i, hi, rfl⟩ := List.mem_map.mp hx
  rw [List.mem_range] at hi
  rw [store_apply_mid _ _ _ _ (Nat.zero_le i) (by simpa using hi)]
  simp [List.getD_eq_getElem?_getD, List.getElem?_replicate, hi]

/-- C5: on the first call of `_PyRandom_Init`, when `PYTHONHASHSEED` is a string of decimal
digits denoting `s <= 4294967295`: the call returns without an event and without reading
a response of the environment (no kernel source is asked, whatever the build, the latches,
the cache and the script), and the world changes only in the initialised flag and in the
secret, whose `secret_size` bytes are all zero when `s = 0` and are what
`lcg_urandom(s, secret, secret_size)` writes when `s != 0`. -/
theorem PyRandom_Init_numeric_seed (b : Build) (secret_size : Nat) (digits : List Char)
    (w : World) (script : List Resp) (hfirst : w._Py_HashSecret_Initialized = false)
    (hne : digits ≠ []) (hdigits : ∀ c ∈ digits, isdigit c = true)
    (hrange : decimalValue digits ≤ 4294967295) :
    (decimalValue digits = 0 →
      _PyRandom_Init b secret_size (some digits) w script =
        { ending := some Ending.returned,
          w := { w with _Py_HashSecret_Initialized := true,
                        mem := store w.mem 0 (List.replicate secret_size 0) },
          events := [], rest := script } ∧
      bytes (store w.mem 0 (List.replicate secret_size 0)) secret_size =
        List.replicate secret_size 0) ∧
    (decimalValue digits ≠ 0 →
      _PyRandom_Init b secret_size (some digits) w script =
        { ending := some Ending.returned,
          w := { w with _Py_HashSecret_Initialized := true,
                        mem := lcg_urandom (decimalValue digits) w.mem secret_size },
          events := [], rest := script }) := by
  have hrandom : digits ≠ ['r', 'a', 'n', 'd', 'o', 'm'] := by
    intro h
    have := hdigits 'r' (by rw [h]; exact List.mem_cons_self _ _)
    revert this
    decide
  have hs := strtoul_digits digits w.errno hne hdigits (by unfold ULONG_MAX; omega)
  have hbranch := PyRandom_Init_seed_branch b secret_size digits w script hfirst hne hrandom
  rw [hs] at hbranch
  simp only [ne_eq, not_true_eq_false, false_or] at hbranch
  rw [if_neg (by unfold ULONG_MAX; omega)] at hbranch
  refine ⟨?_, ?_⟩
  · intro h0
    rw [if_pos h0] at hbranch
    exact ⟨hbranch, bytes_store_zero w.mem secret_size⟩
  · intro h0
    rw [if_neg h0, Nat.mod_eq_of_lt (by omega)] at hbranch
    exact hbranch

/-- C5 at `PYTHONHASHSEED=1` with a secret of four bytes, on a build whose kernel has
bytes ready: the secret is the conformance vector and the kernel is not asked. -/
theorem PyRandom_Init_numeric_seed_witness :
    _PyRandom_Init (Build.getrandom false) 4 (some ['1']) (World.init fun _ => 0)
        [Resp.data [9, 9, 9, 9]] =
      { ending := some Ending.returned,
        w := { (World.init fun _ => 0) with
                 _Py_HashSecret_Initialized := true,
                 mem := lcg_urandom (decimalValue ['1']) (fun _ => 0) 4 },
        events := [], rest := [Resp.data [9, 9, 9, 9]] } :=
  (PyRandom_Init_numeric_seed (Build.getrandom false) 4 ['1'] (World.init fun _ => 0)
    [Resp.data [9, 9, 9, 9]] rfl (by decide) (by decide) (by decide)).2 (by decide)

theorem all_isdigit_iff (s : List Char) :
    s.all isdigit = true ↔ s.dropWhile isdigit = [] := by
  rw [List.dropWhile_eq_nil_iff, List.all_eq_true]

/-- A value that the amended C6 speaks of makes `strtoul` leave characters unread or
return more than 4294967295. -/
theorem strtoul_bad (env : List Char) (errno : Errno) (hne : env ≠ [])
    (hbad : ∀ z, numeral env = some z →
      (z < 0 ∨ 4294967295 < z) ∧
        ¬(-18446744073709551616 < z ∧ z < -18446744069414584320)) :
    (strtoul env errno).endptr ≠ [] ∨ 4294967295 < (strtoul env errno).value := by
  unfold strtoul
  simp only []
  by_cases hd : (afterSign (skipSpace env)).takeWhile isdigit = []
  · rw [if_pos hd]
    exact Or.inl hne
  · rw [if_neg hd]
    by_cases hdrop : (afterSign (skipSpace env)).dropWhile isdigit = []
    · have hall : (afterSign (skipSpace env)).all isdigit = true :=
        (all_isdigit_iff _).mpr hdrop
      have htake : (afterSign (skipSpace env)).takeWhile isdigit = afterSign (skipSpace env) :=
        List.takeWhile_eq_self_iff.mpr (List.all_eq_true.mp hall)
      have hbody : afterSign (skipSpace env) ≠ [] := by
        intro h
        rw [h] at hd
        exact hd rfl
      have hnum := hbad _ (by unfold numeral; simp only []; rw [if_pos ⟨hbody, hall⟩])
      rw [htake]
      right
      by_cases hov : ULONG_MAX < decimalValue (afterSign (skipSpace env))
      · rw [if_pos hov]
        show 4294967295 < ULONG_MAX
        decide
      · rw [if_neg hov]
        by_cases hm : hasMinus (skipSpace env) = true
        · rw [if_pos hm]
          rw [if_pos hm] at hnum
          simp only []
          unfold ULONG_MAX at hov ⊢
          omega
        · rw [if_neg hm]
          rw [if_neg hm] at hnum
          simp only []
          omega
    · left
      split <;> [exact hdrop; (split <;> exact hdrop)]

/-- C6 as amended: on the first call of `_PyRandom_Init`, for every value of
`PYTHONHASHSEED` that is not empty, is not `random`, and is either no numeral (optional
leading white space, optional sign, decimal digits to the end) or a numeral denoting an
integer outside `[0, 4294967295]` other than a negative one between `-(2^64 - 1)` and
`-(2^64 - 2^32 + 1)`: the call ends in the fatal error for `PYTHONHASHSEED`, without an
event, without reading a response of the environment, and without writing the secret. -/
theorem PyRandom_Init_bad_seed (b : Build) (secret_size : Nat) (env : List Char)
    (w : World) (script : List Resp) (hfirst : w._Py_HashSecret_Initialized = false)
    (hne : env ≠ []) (hrandom : env ≠ ['r', 'a', 'n', 'd', 'o', 'm'])
    (hbad : ∀ z, numeral env = some z →
      (z < 0 ∨ 4294967295 < z) ∧
        ¬(-18446744073709551616 < z ∧ z < -18446744069414584320)) :
    (_PyRandom_Init b secret_size (some env) w script).ending = some Ending.fatalHashSeed ∧
    (_PyRandom_Init b secret_size (some env) w script).events = [] ∧
    (_PyRandom_Init b secret_size (some env) w script).rest = script ∧
    (_PyRandom_Init b secret_size (some env) w script).w.mem = w.mem := by
  rw [PyRandom_Init_seed_branch b secret_size env w script hfirst hne hrandom]
  rw [if_pos]
  · exact ⟨rfl, rfl, rfl, rfl⟩
  · rcases strtoul_bad env w.errno hne hbad with h | h
    · exact Or.inl h
    · exact Or.inr (Or.inl h)

/-- The amended C6 at `PYTHONHASHSEED=4294967296`. -/
theorem PyRandom_Init_bad_seed_witness :
    (_PyRandom_Init (Build.getrandom false) 4 (some "4294967296".toList)
      (World.init fun _ => 0) [Resp.data [9, 9, 9, 9]]).ending = some Ending.fatalHashSeed :=
  (PyRandom_Init_bad_seed (Build.getrandom false) 4 "4294967296".toList
    (World.init fun _ => 0) [Resp.data [9, 9, 9, 9]] rfl (by decide) (by decide)
    (by
      have hn : numeral "4294967296".toList = some 4294967296 := by decide
      intro z hz
      rw [hn] at hz
      cases hz
      decide)).1

/-- C6 as stated fails. The empty value is set, is not `random` and is no numeral, and
the call asks the kernel for the secret and returns. The value `-18446744073709551615`
denotes an integer outside `[0, 4294967295]`, and the call takes it as the seed 1. -/
theorem hashseed_empty_or_wrapped :
    (numeral [] = none ∧
      (_PyRandom_Init (Build.getrandom false) 4 (some []) (World.init fun _ => 0)
        [Resp.data [9, 8, 7, 6]]).ending = some Ending.returned ∧
      (_PyRandom_Init (Build.getrandom false) 4 (some []) (World.init fun _ => 0)
        [Resp.data [9, 8, 7, 6]]).events =
          [Event.getrandom 0 4 GRND_NONBLOCK (Resp.data [9, 8, 7, 6])] ∧
      bytes (_PyRandom_Init (Build.getrandom false) 4 (some []) (World.init fun _ => 0)
        [Resp.data [9, 8, 7, 6]]).w.mem 4 = [9, 8, 7, 6]) ∧
    (numeral "-18446744073709551615".toList = some (-18446744073709551615) ∧
      (_PyRandom_Init (Build.getrandom false) 4 (some "-18446744073709551615".toList)
        (World.init fun _ => 0) [Resp.data [9, 8, 7, 6]]).ending = some Ending.returned ∧
      bytes (_PyRandom_Init (Build.getrandom false) 4 (some "-18446744073709551615".toList)
        (World.init fun _ => 0) [Resp.data [9, 8, 7, 6]]).w.mem 4 =
          bytes (lcg_urandom 1 (fun _ => 0) 4) 4) := by
  refine ⟨⟨by decide, by decide, by decide, by decide⟩, ⟨by decide, by decide, by decide⟩⟩

end PyRandom
